import Mathlib

/-!
Verification development for the serde_polars conversion layer.

The development shallowly embeds the schema-inference / temporal-reconciliation
core of the library (src/lib.rs): the chrono type detector, the forward column
reconciler (convert_chrono_columns and its string-parsing helpers), the reverse
reconciler (convert_from_chrono_columns), the dictionary normalization, and the
public to_dataframe / from_dataframe pipeline.

External collaborators are modelled behaviourally:
 - chrono calendar arithmetic (proleptic Gregorian dates, days since the Unix
   epoch, nanosecond timestamps, the fixed textual formats used by the serde
   implementations of NaiveDate / NaiveDateTime / DateTime of Utc);
 - serde_arrow (the temporal-unaware tabular codec): fields encode positionally
   into named, equal-length arrays, chrono values encode through their serde
   string forms;
 - the arrow / polars engine bridge, with a DataFrame modelled as the single
   record batch it carries after chunk normalization.

The model keeps years in the range 0..9999, the range in which the four-digit
zero-padded rendering of the %Y specifier is exact.
-/

/-! ### Calendar model (chrono, proleptic Gregorian) -/

/-- Gregorian leap-year predicate, as in chrono. -/
def isLeapYear (y : Nat) : Bool :=
  y % 4 == 0 && (y % 100 != 0 || y % 400 == 0)

/-- Length in days of calendar year y. -/
def yearLen (y : Nat) : Nat := if isLeapYear y then 366 else 365

/-- Length in days of month m of year y (months are 1-based). -/
def monthLen (y m : Nat) : Nat :=
  if m = 2 then (if isLeapYear y then 29 else 28)
  else if m = 4 ∨ m = 6 ∨ m = 9 ∨ m = 11 then 30
  else 31

/-- Days contained in the years 0, 1, ..., y-1, in closed form
(365 per year plus one per leap year). -/
def daysBeforeYear (y : Nat) : Nat :=
  365 * y + (y + 3) / 4 - (y + 99) / 100 + (y + 399) / 400

/-- Days contained in months 1..m of year y. -/
def daysInMonthsUpTo (y : Nat) : Nat → Nat
  | 0 => 0
  | m + 1 => daysInMonthsUpTo y m + monthLen y (m + 1)

/-- Day index of a civil date counted from 0000-01-01 (day 0). -/
def civilToDays (y m d : Nat) : Nat :=
  daysBeforeYear y + daysInMonthsUpTo y (m - 1) + (d - 1)

/-- Day index of the Unix epoch 1970-01-01 counted from 0000-01-01. -/
def epochIndex : Nat := civilToDays 1970 1 1

/-- Signed number of days between a civil date and the Unix epoch
(chrono: date.signed_duration_since(1970-01-01).num_days()). -/
def dateToEpochDays (y m d : Nat) : Int :=
  (civilToDays y m d : Int) - (epochIndex : Int)

/-- Generic peeling loop: starting at index i with g days remaining, subtract
the length of consecutive index cells while at least one full cell remains. -/
def peelFrom (len : Nat → Nat) : Nat → Nat → Nat → Nat × Nat
  | 0, i, g => (i, g)
  | fuel + 1, i, g =>
    if g < len i then (i, g) else peelFrom len fuel (i + 1) (g - len i)

/-- Sum of len over the n consecutive indices starting at i0. -/
def sumLen (len : Nat → Nat) (i0 : Nat) : Nat → Nat
  | 0 => 0
  | n + 1 => len i0 + sumLen len (i0 + 1) n

/-- Year and day-of-year of day index g counted from 0000-01-01: split off
whole 400-year eras arithmetically, then peel the at most 400 remaining years. -/
def yearSplit (g : Nat) : Nat × Nat :=
  peelFrom yearLen 400 (400 * (g / 146097)) (g % 146097)

/-- Civil date (y, m, d) of day index g counted from 0000-01-01. -/
def daysToCivil (g : Nat) : Nat × Nat × Nat :=
  ((yearSplit g).1,
   (peelFrom (monthLen (yearSplit g).1) 12 1 (yearSplit g).2).1,
   (peelFrom (monthLen (yearSplit g).1) 12 1 (yearSplit g).2).2 + 1)

/-- Civil date of a signed epoch-relative day count
(chrono: 1970-01-01 + Duration::days(z)). -/
def epochDaysToDate (z : Int) : Nat × Nat × Nat :=
  daysToCivil (z + (epochIndex : Int)).toNat

/-- Validity of a civil date in the modelled year range. -/
def ValidYMD (y m d : Nat) : Prop :=
  y ≤ 9999 ∧ 1 ≤ m ∧ m ≤ 12 ∧ 1 ≤ d ∧ d ≤ monthLen y m

instance (y m d : Nat) : Decidable (ValidYMD y m d) := by
  unfold ValidYMD; infer_instance

theorem yearLen_eq (y : Nat) :
    yearLen y = if y % 4 = 0 ∧ (y % 100 ≠ 0 ∨ y % 400 = 0) then 366 else 365 := by
  unfold yearLen isLeapYear
  by_cases h4 : y % 4 = 0 <;> by_cases h100 : y % 100 = 0 <;> by_cases h400 : y % 400 = 0 <;>
    simp [h4, h100, h400]

set_option maxHeartbeats 1600000 in
theorem daysBeforeYear_succ (y : Nat) :
    daysBeforeYear (y + 1) = daysBeforeYear y + yearLen y := by
  rw [yearLen_eq]
  unfold daysBeforeYear
  split
  · omega
  · omega

theorem sumLen_snoc (len : Nat → Nat) :
    ∀ n i0, sumLen len i0 (n + 1) = sumLen len i0 n + len (i0 + n) := by
  intro n
  induction n with
  | zero =>
    intro i0
    simp [sumLen]
  | succ k ih =>
    intro i0
    have e : i0 + (k + 1) = (i0 + 1) + k := by omega
    show len i0 + sumLen len (i0 + 1) (k + 1) = len i0 + sumLen len (i0 + 1) k + len (i0 + (k + 1))
    rw [ih (i0 + 1), e]
    omega

theorem sumLen_append (len : Nat → Nat) :
    ∀ a i0 b, sumLen len i0 (a + b) = sumLen len i0 a + sumLen len (i0 + a) b := by
  intro a
  induction a with
  | zero =>
    intro i0 b
    simp [sumLen]
  | succ k ih =>
    intro i0 b
    have e1 : (k + 1) + b = (k + b) + 1 := by omega
    have e2 : i0 + (k + 1) = (i0 + 1) + k := by omega
    rw [e1]
    show len i0 + sumLen len (i0 + 1) (k + b) = _
    rw [ih (i0 + 1) b]
    show _ = len i0 + sumLen len (i0 + 1) k + sumLen len (i0 + (k + 1)) b
    rw [e2]
    omega

theorem peelFrom_sum (len : Nat → Nat) :
    ∀ n i0 fuel r, n < fuel → r < len (i0 + n) →
      peelFrom len fuel i0 (sumLen len i0 n + r) = (i0 + n, r) := by
  intro n
  induction n with
  | zero =>
    intro i0 fuel r hf hr
    simp only [Nat.add_zero] at hr ⊢
    match fuel, hf with
    | fuel + 1, _ =>
      have h0 : sumLen len i0 0 + r = r := by simp [sumLen]
      rw [h0]
      show (if r < len i0 then (i0, r) else _) = (i0, r)
      rw [if_pos hr]
  | succ k ih =>
    intro i0 fuel r hf hr
    have e : i0 + (k + 1) = (i0 + 1) + k := by omega
    match fuel, hf with
    | fuel + 1, hf =>
      have hlen : sumLen len i0 (k + 1) + r = len i0 + (sumLen len (i0 + 1) k + r) := by
        simp [sumLen]; omega
      rw [hlen]
      show (if len i0 + (sumLen len (i0 + 1) k + r) < len i0 then _ else
        peelFrom len fuel (i0 + 1) (len i0 + (sumLen len (i0 + 1) k + r) - len i0)) = _
      have hnotlt : ¬ (len i0 + (sumLen len (i0 + 1) k + r) < len i0) := by omega
      rw [if_neg hnotlt]
      have hsub : len i0 + (sumLen len (i0 + 1) k + r) - len i0 =
          sumLen len (i0 + 1) k + r := by omega
      rw [hsub]
      rw [e] at hr ⊢
      exact ih (i0 + 1) fuel r (by omega) hr

theorem daysBeforeYear_eq_sumLen : ∀ y, daysBeforeYear y = sumLen yearLen 0 y := by
  intro y
  induction y with
  | zero => simp [daysBeforeYear, sumLen]
  | succ k ih =>
    rw [daysBeforeYear_succ, ih, sumLen_snoc]
    simp

theorem daysInMonthsUpTo_eq_sumLen (y : Nat) :
    ∀ m, daysInMonthsUpTo y m = sumLen (monthLen y) 1 m := by
  intro m
  induction m with
  | zero => rfl
  | succ k ih =>
    show daysInMonthsUpTo y k + monthLen y (k + 1) = _
    rw [ih, sumLen_snoc]
    rw [Nat.add_comm 1 k]

theorem daysInMonthsUpTo_year (y : Nat) : daysInMonthsUpTo y 12 = yearLen y := by
  cases h : isLeapYear y <;>
    simp [daysInMonthsUpTo, monthLen, yearLen, h]

theorem daysInMonthsUpTo_le (y : Nat) : ∀ a b, a ≤ b →
    daysInMonthsUpTo y a ≤ daysInMonthsUpTo y b := by
  intro a b hab
  induction b with
  | zero => simp_all
  | succ k ih =>
    rcases Nat.lt_or_ge a (k + 1) with h | h
    · have := ih (by omega)
      show _ ≤ daysInMonthsUpTo y k + monthLen y (k + 1)
      omega
    · have : a = k + 1 := by omega
      simp [this]

theorem doy_lt_yearLen (y m d : Nat) (h : ValidYMD y m d) :
    daysInMonthsUpTo y (m - 1) + (d - 1) < yearLen y := by
  obtain ⟨hy, hm1, hm2, hd1, hd2⟩ := h
  have hstep : daysInMonthsUpTo y (m - 1) + monthLen y m = daysInMonthsUpTo y m := by
    have e : m = (m - 1) + 1 := by omega
    rw [e]
    show _ = daysInMonthsUpTo y (m - 1) + monthLen y ((m - 1) + 1)
    rw [← e]
  have hle : daysInMonthsUpTo y m ≤ daysInMonthsUpTo y 12 := daysInMonthsUpTo_le y m 12 hm2
  rw [daysInMonthsUpTo_year] at hle
  omega

theorem daysBeforeYear_era (q : Nat) : daysBeforeYear (400 * q) = 146097 * q := by
  unfold daysBeforeYear
  omega

theorem sumLen_mono (len : Nat → Nat) (i0 n1 n2 : Nat) (h : n1 ≤ n2) :
    sumLen len i0 n1 ≤ sumLen len i0 n2 := by
  have e : n2 = n1 + (n2 - n1) := by omega
  calc sumLen len i0 n1 ≤ sumLen len i0 n1 + sumLen len (i0 + n1) (n2 - n1) := by omega
  _ = sumLen len i0 (n1 + (n2 - n1)) := (sumLen_append len n1 i0 (n2 - n1)).symm
  _ = sumLen len i0 n2 := by rw [← e]

/-- Round trip of the day-count bijection on valid civil dates. -/
theorem daysToCivil_civilToDays (y m d : Nat) (h : ValidYMD y m d) :
    daysToCivil (civilToDays y m d) = (y, m, d) := by
  obtain ⟨hy, hm1, hm2, hd1, hd2⟩ := h
  have hdoy : daysInMonthsUpTo y (m - 1) + (d - 1) < yearLen y :=
    doy_lt_yearLen y m d ⟨hy, hm1, hm2, hd1, hd2⟩
  set D := daysInMonthsUpTo y (m - 1) + (d - 1) with hD
  set q := y / 400 with hq
  set k := y % 400 with hk
  have hyqk : y = 400 * q + k := by omega
  have hki : 400 * q + k = y := by omega
  have hsplit : daysBeforeYear y = 146097 * q + sumLen yearLen (400 * q) k := by
    conv_lhs => rw [hyqk]
    rw [daysBeforeYear_eq_sumLen, sumLen_append, ← daysBeforeYear_eq_sumLen, daysBeforeYear_era]
    simp
  have h400 : sumLen yearLen (400 * q) 400 = 146097 := by
    have h2 := sumLen_append yearLen (400 * q) 0 400
    simp only [Nat.zero_add] at h2
    have h3 := daysBeforeYear_eq_sumLen (400 * q + 400)
    have h4 := daysBeforeYear_eq_sumLen (400 * q)
    have h5 : daysBeforeYear (400 * q) = 146097 * q := daysBeforeYear_era q
    have h6 : daysBeforeYear (400 * q + 400) = 146097 * (q + 1) := by
      have e : 400 * q + 400 = 400 * (q + 1) := by omega
      rw [e, daysBeforeYear_era]
    omega
  have hylen : sumLen yearLen (400 * q) k + yearLen y ≤ 146097 := by
    have hsnoc := sumLen_snoc yearLen k (400 * q)
    rw [hki] at hsnoc
    have hmono := sumLen_mono yearLen (400 * q) (k + 1) 400 (by omega)
    omega
  have hg : civilToDays y m d = 146097 * q + (sumLen yearLen (400 * q) k + D) := by
    unfold civilToDays
    omega
  have hdiv : civilToDays y m d / 146097 = q := by omega
  have hmod : civilToDays y m d % 146097 = sumLen yearLen (400 * q) k + D := by omega
  have hpeelY : yearSplit (civilToDays y m d) = (y, D) := by
    unfold yearSplit
    rw [hdiv, hmod]
    have hr : D < yearLen (400 * q + k) := by rw [hki]; omega
    have hps := peelFrom_sum yearLen k (400 * q) 400 D (by omega) hr
    rw [hki] at hps
    exact hps
  have hpeelM : peelFrom (monthLen y) 12 1 D = (m, d - 1) := by
    have hdlt : d - 1 < monthLen y (1 + (m - 1)) := by
      have e : 1 + (m - 1) = m := by omega
      rw [e]; omega
    have hps := peelFrom_sum (monthLen y) (m - 1) 1 12 (d - 1) (by omega) hdlt
    rw [hD, daysInMonthsUpTo_eq_sumLen]
    have e2 : 1 + (m - 1) = m := by omega
    rw [hps, e2]
  unfold daysToCivil
  rw [hpeelY]
  show (y, (peelFrom (monthLen y) 12 1 D).1, (peelFrom (monthLen y) 12 1 D).2 + 1) = (y, m, d)
  rw [hpeelM]
  show (y, m, (d - 1) + 1) = (y, m, d)
  have e : d - 1 + 1 = d := by omega
  rw [e]

/-- Round trip through signed epoch-relative day counts. -/
theorem epochDaysToDate_dateToEpochDays (y m d : Nat) (h : ValidYMD y m d) :
    epochDaysToDate (dateToEpochDays y m d) = (y, m, d) := by
  unfold epochDaysToDate dateToEpochDays
  have e : ((civilToDays y m d : Int) - (epochIndex : Int) + (epochIndex : Int)).toNat =
      civilToDays y m d := by omega
  rw [e]
  exact daysToCivil_civilToDays y m d h

/-! ### Instants: civil datetime components and epoch nanoseconds -/

/-- Civil datetime components (model of chrono NaiveDateTime, and of the UTC
components of a DateTime of Utc). -/
structure DT where
  y : Nat
  m : Nat
  d : Nat
  hh : Nat
  mi : Nat
  ss : Nat
  ns : Nat
deriving DecidableEq

/-- Validity of datetime components (leap seconds are outside the model). -/
def ValidDT (t : DT) : Prop :=
  ValidYMD t.y t.m t.d ∧ t.hh < 24 ∧ t.mi < 60 ∧ t.ss < 60 ∧ t.ns < 1000000000

instance (t : DT) : Decidable (ValidDT t) := by
  unfold ValidDT; infer_instance

/-- Nanoseconds since the Unix epoch of a civil datetime taken at UTC
(chrono: dt.and_utc().timestamp_nanos; may exceed the i64 range). -/
def dtToNanos (t : DT) : Int :=
  dateToEpochDays t.y t.m t.d * 86400000000000 +
    (((t.hh * 3600 + t.mi * 60 + t.ss) * 1000000000 + t.ns : Nat) : Int)

def i64Min : Int := -9223372036854775808

def i64Max : Int := 9223372036854775807

/-- Model of chrono timestamp_nanos_opt: the nanosecond count if and only if
it is representable as an i64. -/
def timestampNanosOpt (n : Int) : Option Int :=
  if i64Min ≤ n ∧ n ≤ i64Max then some n else none

/-- Civil UTC components of an epoch-nanosecond count
(chrono: DateTime::from_timestamp_nanos). -/
def nanosToDt (n : Int) : DT :=
  { y := (epochDaysToDate (n / 86400000000000)).1
    m := (epochDaysToDate (n / 86400000000000)).2.1
    d := (epochDaysToDate (n / 86400000000000)).2.2
    hh := (n % 86400000000000).toNat / 1000000000 / 3600
    mi := (n % 86400000000000).toNat / 1000000000 % 3600 / 60
    ss := (n % 86400000000000).toNat / 1000000000 % 60
    ns := (n % 86400000000000).toNat % 1000000000 }

theorem nanosToDt_dtToNanos (t : DT) (h : ValidDT t) : nanosToDt (dtToNanos t) = t := by
  obtain ⟨hymd, hhh, hmi, hss, hns⟩ := h
  obtain ⟨y, m, d, hh, mi, ss, ns⟩ := t
  simp only at hhh hmi hss hns
  have hsod : (hh * 3600 + mi * 60 + ss) * 1000000000 + ns < 86400000000000 := by omega
  set E := dateToEpochDays y m d with hE
  set R : Nat := (hh * 3600 + mi * 60 + ss) * 1000000000 + ns with hR
  have hn : dtToNanos ⟨y, m, d, hh, mi, ss, ns⟩ = E * 86400000000000 + (R : Int) := rfl
  have hdiv : (E * 86400000000000 + (R : Int)) / 86400000000000 = E := by omega
  have hmod : ((E * 86400000000000 + (R : Int)) % 86400000000000).toNat = R := by omega
  have hymd2 : epochDaysToDate E = (y, m, d) := epochDaysToDate_dateToEpochDays y m d hymd
  unfold nanosToDt
  rw [hn, hdiv, hmod, hymd2]
  have e1 : R / 1000000000 = hh * 3600 + mi * 60 + ss := by omega
  have e2 : R % 1000000000 = ns := by omega
  rw [e1, e2]
  have e3 : (hh * 3600 + mi * 60 + ss) / 3600 = hh := by omega
  have e4 : (hh * 3600 + mi * 60 + ss) % 3600 / 60 = mi := by omega
  have e5 : (hh * 3600 + mi * 60 + ss) % 60 = ss := by omega
  rw [e3, e4, e5]

/-! ### Decimal digit strings -/

/-- Character of a decimal digit. -/
def digCh (n : Nat) : Char := Char.ofNat (48 + n)

/-- Value of a decimal digit character. -/
def chDig (c : Char) : Option Nat :=
  if 48 ≤ c.toNat ∧ c.toNat ≤ 57 then some (c.toNat - 48) else none

def isDigitCh (c : Char) : Bool := decide (48 ≤ c.toNat ∧ c.toNat ≤ 57)

/-- Zero-padded fixed-width decimal rendering (most significant digit first). -/
def padL : Nat → Nat → List Char
  | 0, _ => []
  | k + 1, n => digCh (n / 10 ^ k) :: padL k (n % 10 ^ k)

/-- Fixed-width decimal parser; returns the value and the remaining input. -/
def parseFixed : Nat → List Char → Option (Nat × List Char)
  | 0, l => some (0, l)
  | _ + 1, [] => none
  | k + 1, c :: l =>
    match chDig c with
    | none => none
    | some dv =>
      match parseFixed k l with
      | none => none
      | some (v, r) => some (dv * 10 ^ k + v, r)

theorem chDig_digCh (n : Nat) (h : n < 10) : chDig (digCh n) = some n := by
  have hall : ∀ k < 10, chDig (digCh k) = some k := by decide
  exact hall n h

theorem isDigitCh_digCh (n : Nat) (h : n < 10) : isDigitCh (digCh n) = true := by
  have hall : ∀ k < 10, isDigitCh (digCh k) = true := by decide
  exact hall n h

theorem parseFixed_padL :
    ∀ k n rest, n < 10 ^ k → parseFixed k (padL k n ++ rest) = some (n, rest) := by
  intro k
  induction k with
  | zero =>
    intro n rest hn
    have : n = 0 := by simpa using hn
    subst this
    rfl
  | succ k ih =>
    intro n rest hn
    have hp : 0 < 10 ^ k := Nat.pos_pow_of_pos k (by omega)
    have hq : n / 10 ^ k < 10 := by
      rw [Nat.div_lt_iff_lt_mul hp]
      calc n < 10 ^ (k + 1) := hn
      _ = 10 * 10 ^ k := by rw [pow_succ]; ring
    have hr : n % 10 ^ k < 10 ^ k := Nat.mod_lt _ hp
    show parseFixed (k + 1) (digCh (n / 10 ^ k) :: (padL k (n % 10 ^ k) ++ rest)) = _
    show (match chDig (digCh (n / 10 ^ k)) with
      | none => none
      | some dv =>
        match parseFixed k (padL k (n % 10 ^ k) ++ rest) with
        | none => none
        | some (v, r) => some (dv * 10 ^ k + v, r)) = _
    rw [chDig_digCh _ hq, ih _ rest hr]
    simp only
    congr 2
    have h1 := Nat.div_add_mod n (10 ^ k)
    have h2 : 10 ^ k * (n / 10 ^ k) = n / 10 ^ k * 10 ^ k := Nat.mul_comm _ _
    omega

theorem padL_length : ∀ k n, (padL k n).length = k := by
  intro k
  induction k with
  | zero => intro n; rfl
  | succ k ih =>
    intro n
    show (digCh (n / 10 ^ k) :: padL k (n % 10 ^ k)).length = k + 1
    simp [ih]

theorem padL_digits : ∀ k n, n < 10 ^ k → ∀ c ∈ padL k n, isDigitCh c = true := by
  intro k
  induction k with
  | zero => intro n _ c hc; simp [padL] at hc
  | succ k ih =>
    intro n hn c hc
    have hp : 0 < 10 ^ k := Nat.pos_pow_of_pos k (by omega)
    have hq : n / 10 ^ k < 10 := by
      rw [Nat.div_lt_iff_lt_mul hp]
      calc n < 10 ^ (k + 1) := hn
      _ = 10 * 10 ^ k := by rw [pow_succ]; ring
    rcases List.mem_cons.mp hc with h | h
    · subst h; exact isDigitCh_digCh _ hq
    · exact ih (n % 10 ^ k) (Nat.mod_lt _ hp) c h

/-! ### Fractional seconds and composite formats -/

/-- Greedy span of leading decimal digit characters. -/
def takeDigits : List Char → List Char × List Char
  | [] => ([], [])
  | c :: r =>
    if isDigitCh c then ((c :: (takeDigits r).1), (takeDigits r).2) else ([], c :: r)

/-- Value of a digit string, most significant digit first. -/
def digitsVal (l : List Char) : Nat :=
  l.foldl (fun a c => a * 10 + ((chDig c).getD 0)) 0

/-- Rendering of the chrono %.f specifier: empty for zero nanoseconds, else a
dot and 3, 6 or 9 digits depending on the trailing zeros. -/
def formatFracL (ns : Nat) : List Char :=
  if ns = 0 then []
  else if ns % 1000000 = 0 then '.' :: padL 3 (ns / 1000000)
  else if ns % 1000 = 0 then '.' :: padL 6 (ns / 1000)
  else '.' :: padL 9 ns

/-- Parser for the %.f specifier: an optional dot followed by 1 to 9 digits,
scaled to nanoseconds. -/
def parseFracL : List Char → Option (Nat × List Char)
  | [] => some (0, [])
  | c :: r =>
    if c = '.' then
      if (takeDigits r).1.length = 0 ∨ 9 < (takeDigits r).1.length then none
      else some (digitsVal (takeDigits r).1 * 10 ^ (9 - (takeDigits r).1.length), (takeDigits r).2)
    else some (0, c :: r)

/-- Condition on the text following a fraction: end of input or a character
that neither extends the digit run nor opens a new fraction. -/
def FracStop : List Char → Prop
  | [] => True
  | c :: _ => isDigitCh c = false ∧ c ≠ '.'

theorem takeDigits_append (l : List Char) (rest : List Char)
    (hl : ∀ c ∈ l, isDigitCh c = true) (hrest : FracStop rest) :
    takeDigits (l ++ rest) = (l, rest) := by
  induction l with
  | nil =>
    cases rest with
    | nil => rfl
    | cons c r =>
      show takeDigits (c :: r) = ([], c :: r)
      unfold takeDigits
      rw [if_neg]
      simp [FracStop] at hrest
      simp [hrest.1]
  | cons c l ih =>
    have hc : isDigitCh c = true := hl c (List.mem_cons_self c l)
    have hrec := ih (fun x hx => hl x (List.mem_cons_of_mem c hx))
    show takeDigits (c :: (l ++ rest)) = (c :: l, rest)
    unfold takeDigits
    rw [if_pos hc, hrec]

theorem digitsVal_padL_aux :
    ∀ k n a, n < 10 ^ k →
      (padL k n).foldl (fun x c => x * 10 + ((chDig c).getD 0)) a = a * 10 ^ k + n := by
  intro k
  induction k with
  | zero =>
    intro n a hn
    have : n = 0 := by simpa using hn
    subst this
    simp [padL]
  | succ k ih =>
    intro n a hn
    have hp : 0 < 10 ^ k := Nat.pos_pow_of_pos k (by omega)
    have hq : n / 10 ^ k < 10 := by
      rw [Nat.div_lt_iff_lt_mul hp]
      calc n < 10 ^ (k + 1) := hn
      _ = 10 * 10 ^ k := by rw [pow_succ]; ring
    have hr : n % 10 ^ k < 10 ^ k := Nat.mod_lt _ hp
    show (digCh (n / 10 ^ k) :: padL k (n % 10 ^ k)).foldl _ a = _
    rw [List.foldl_cons]
    rw [chDig_digCh _ hq]
    show (padL k (n % 10 ^ k)).foldl _ (a * 10 + n / 10 ^ k) = _
    rw [ih _ _ hr]
    have hdm := Nat.div_add_mod n (10 ^ k)
    have hps : 10 ^ (k + 1) = 10 * 10 ^ k := by rw [pow_succ]; ring
    calc (a * 10 + n / 10 ^ k) * 10 ^ k + n % 10 ^ k
        = a * (10 * 10 ^ k) + (10 ^ k * (n / 10 ^ k) + n % 10 ^ k) := by ring
    _ = a * 10 ^ (k + 1) + n := by rw [hdm, hps]

theorem digitsVal_padL (k n : Nat) (hn : n < 10 ^ k) : digitsVal (padL k n) = n := by
  have := digitsVal_padL_aux k n 0 hn
  simpa [digitsVal] using this

theorem parseFracL_format (ns : Nat) (rest : List Char) (hns : ns < 1000000000)
    (hrest : FracStop rest) :
    parseFracL (formatFracL ns ++ rest) = some (ns, rest) := by
  by_cases h0 : ns = 0
  · subst h0
    show parseFracL rest = some (0, rest)
    cases rest with
    | nil => rfl
    | cons c r =>
      show parseFracL (c :: r) = some (0, c :: r)
      simp [FracStop] at hrest
      simp only [parseFracL]
      rw [if_neg hrest.2]
  · have main : ∀ k v, v < 10 ^ k → k = 3 ∨ k = 6 ∨ k = 9 →
        parseFracL (('.' :: padL k v) ++ rest) = some (digitsVal (padL k v) * 10 ^ (9 - k), rest) := by
      intro k v hv hk
      show parseFracL ('.' :: (padL k v ++ rest)) = _
      simp only [parseFracL, if_true]
      rw [takeDigits_append (padL k v) rest (padL_digits k v hv) hrest]
      simp only [padL_length]
      have hkne : ¬ ((padL k v).length = 0 ∨ 9 < (padL k v).length) := by
        rw [padL_length]; omega
      rw [padL_length] at hkne
      rw [if_neg hkne]
    unfold formatFracL
    rw [if_neg h0]
    by_cases h6 : ns % 1000000 = 0
    · rw [if_pos h6]
      have hv : ns / 1000000 < 10 ^ 3 := by omega
      rw [main 3 (ns / 1000000) hv (by omega)]
      rw [digitsVal_padL 3 _ hv]
      congr 2
      omega
    · rw [if_neg h6]
      by_cases h3 : ns % 1000 = 0
      · rw [if_pos h3]
        have hv : ns / 1000 < 10 ^ 6 := by omega
        rw [main 6 (ns / 1000) hv (by omega)]
        rw [digitsVal_padL 6 _ hv]
        congr 2
        omega
      · rw [if_neg h3]
        have hv : ns < 10 ^ 9 := by omega
        rw [main 9 ns hv (by omega)]
        rw [digitsVal_padL 9 _ hv]
        congr 2
        omega

/-! ### Date and datetime text formats -/

/-- Consume one expected character. -/
def expectCh (c : Char) : List Char → Option (List Char)
  | x :: r => if x = c then some r else none
  | [] => none

theorem expectCh_cons (c : Char) (r : List Char) : expectCh c (c :: r) = some r := by
  simp [expectCh]

/-- Rendering of the %Y-%m-%d date format (chrono NaiveDate serde form). -/
def formatDateL (y m d : Nat) : List Char :=
  padL 4 y ++ '-' :: (padL 2 m ++ '-' :: padL 2 d)

/-- Parser of the %Y-%m-%d prefix; returns the components and remaining text. -/
def parseDateCore (l : List Char) : Option ((Nat × Nat × Nat) × List Char) :=
  (parseFixed 4 l).bind fun p1 =>
  (expectCh '-' p1.2).bind fun r1 =>
  (parseFixed 2 r1).bind fun p2 =>
  (expectCh '-' p2.2).bind fun r2 =>
  (parseFixed 2 r2).bind fun p3 =>
  if ValidYMD p1.1 p2.1 p3.1 then some ((p1.1, p2.1, p3.1), p3.2) else none

/-- Full-input %Y-%m-%d parser (chrono NaiveDate::parse_from_str rejects
trailing input and invalid component combinations). -/
def parseDateL (l : List Char) : Option (Nat × Nat × Nat) :=
  match parseDateCore l with
  | some (v, []) => some v
  | _ => none

/-- Rendering of the %H:%M:%S time components. -/
def formatTimeL (hh mi ss : Nat) : List Char :=
  padL 2 hh ++ ':' :: (padL 2 mi ++ ':' :: padL 2 ss)

/-- Rendering of the %Y-%m-%dT%H:%M:%S%.f format (chrono NaiveDateTime serde
form). -/
def formatNaiveL (t : DT) : List Char :=
  formatDateL t.y t.m t.d ++ 'T' :: (formatTimeL t.hh t.mi t.ss ++ formatFracL t.ns)

/-- Parser of the %Y-%m-%dT%H:%M:%S%.f prefix. -/
def parseNaiveCore (l : List Char) : Option (DT × List Char) :=
  (parseFixed 4 l).bind fun p1 =>
  (expectCh '-' p1.2).bind fun r1 =>
  (parseFixed 2 r1).bind fun p2 =>
  (expectCh '-' p2.2).bind fun r2 =>
  (parseFixed 2 r2).bind fun p3 =>
  (expectCh 'T' p3.2).bind fun r3 =>
  (parseFixed 2 r3).bind fun p4 =>
  (expectCh ':' p4.2).bind fun r4 =>
  (parseFixed 2 r4).bind fun p5 =>
  (expectCh ':' p5.2).bind fun r5 =>
  (parseFixed 2 r5).bind fun p6 =>
  (parseFracL p6.2).bind fun p7 =>
  if ValidDT ⟨p1.1, p2.1, p3.1, p4.1, p5.1, p6.1, p7.1⟩ then
    some (⟨p1.1, p2.1, p3.1, p4.1, p5.1, p6.1, p7.1⟩, p7.2)
  else none

/-- Full-input %Y-%m-%dT%H:%M:%S%.f parser. -/
def parseNaiveL (l : List Char) : Option DT :=
  match parseNaiveCore l with
  | some (t, []) => some t
  | _ => none

/-- Parser of an RFC 3339 offset suffix: Z, or a signed HH:MM offset in
seconds. Consumes the entire remaining input. -/
def parseOffsetL : List Char → Option Int
  | ['Z'] => some 0
  | c :: r =>
    if c = '+' ∨ c = '-' then
      (parseFixed 2 r).bind fun p1 =>
      (expectCh ':' p1.2).bind fun r1 =>
      (parseFixed 2 r1).bind fun p2 =>
      if p2.2 = [] ∧ p1.1 < 24 ∧ p2.1 < 60 then
        some (if c = '-' then -(((p1.1 * 3600 + p2.1 * 60 : Nat)) : Int)
          else (((p1.1 * 3600 + p2.1 * 60 : Nat)) : Int))
      else none
    else none
  | [] => none

/-- Full RFC 3339 parser: datetime components plus offset seconds
(chrono DateTime::parse_from_rfc3339). -/
def parseRfc3339L (l : List Char) : Option (DT × Int) :=
  (parseNaiveCore l).bind fun p =>
  (parseOffsetL p.2).bind fun off =>
  some (p.1, off)

theorem parseDateCore_format (y m d : Nat) (rest : List Char) (h : ValidYMD y m d) :
    parseDateCore (formatDateL y m d ++ rest) = some ((y, m, d), rest) := by
  have hb : y < 10 ^ 4 ∧ m < 10 ^ 2 ∧ d < 10 ^ 2 := by
    obtain ⟨h1, h2, h3, h4, h5⟩ := h
    refine ⟨by omega, by omega, ?_⟩
    have : monthLen y m ≤ 31 := by
      unfold monthLen
      split
      · split <;> omega
      · split <;> omega
    omega
  have e : formatDateL y m d ++ rest =
      padL 4 y ++ ('-' :: (padL 2 m ++ ('-' :: (padL 2 d ++ rest)))) := by
    simp [formatDateL, List.append_assoc]
  rw [e]
  unfold parseDateCore
  rw [parseFixed_padL 4 y _ hb.1]
  simp only [Option.some_bind]
  rw [expectCh_cons]
  simp only [Option.some_bind]
  rw [parseFixed_padL 2 m _ hb.2.1]
  simp only [Option.some_bind]
  rw [expectCh_cons]
  simp only [Option.some_bind]
  rw [parseFixed_padL 2 d _ hb.2.2]
  simp only [Option.some_bind]
  rw [if_pos h]

theorem parseDateL_format (y m d : Nat) (h : ValidYMD y m d) :
    parseDateL (formatDateL y m d) = some (y, m, d) := by
  unfold parseDateL
  have e : formatDateL y m d = formatDateL y m d ++ [] := by simp
  rw [e, parseDateCore_format y m d [] h]

theorem parseNaiveCore_format (t : DT) (rest : List Char) (h : ValidDT t)
    (hrest : FracStop rest) :
    parseNaiveCore (formatNaiveL t ++ rest) = some (t, rest) := by
  obtain ⟨hymd, hhh, hmi, hss, hns⟩ := h
  obtain ⟨y, m, d, hh, mi, ss, ns⟩ := t
  simp only at hhh hmi hss hns
  have hymd2 : ValidYMD y m d := hymd
  have hb : y < 10 ^ 4 ∧ m < 10 ^ 2 ∧ d < 10 ^ 2 := by
    obtain ⟨h1, h2, h3, h4, h5⟩ := hymd2
    refine ⟨by omega, by omega, ?_⟩
    have : monthLen y m ≤ 31 := by
      unfold monthLen
      split
      · split <;> omega
      · split <;> omega
    omega
  have e : formatNaiveL ⟨y, m, d, hh, mi, ss, ns⟩ ++ rest =
      padL 4 y ++ ('-' :: (padL 2 m ++ ('-' :: (padL 2 d ++
        ('T' :: (padL 2 hh ++ (':' :: (padL 2 mi ++ (':' :: (padL 2 ss ++
          (formatFracL ns ++ rest))))))))))) := by
    simp [formatNaiveL, formatDateL, formatTimeL, List.append_assoc]
  rw [e]
  unfold parseNaiveCore
  rw [parseFixed_padL 4 y _ hb.1]
  simp only [Option.some_bind]
  rw [expectCh_cons]
  simp only [Option.some_bind]
  rw [parseFixed_padL 2 m _ hb.2.1]
  simp only [Option.some_bind]
  rw [expectCh_cons]
  simp only [Option.some_bind]
  rw [parseFixed_padL 2 d _ hb.2.2]
  simp only [Option.some_bind]
  rw [expectCh_cons]
  simp only [Option.some_bind]
  rw [parseFixed_padL 2 hh _ (by omega)]
  simp only [Option.some_bind]
  rw [expectCh_cons]
  simp only [Option.some_bind]
  rw [parseFixed_padL 2 mi _ (by omega)]
  simp only [Option.some_bind]
  rw [expectCh_cons]
  simp only [Option.some_bind]
  rw [parseFixed_padL 2 ss _ (by omega)]
  simp only [Option.some_bind]
  rw [parseFracL_format ns rest hns hrest]
  simp only [Option.some_bind]
  rw [if_pos ⟨hymd2, hhh, hmi, hss, hns⟩]

theorem parseNaiveL_format (t : DT) (h : ValidDT t) :
    parseNaiveL (formatNaiveL t) = some t := by
  unfold parseNaiveL
  have e : formatNaiveL t = formatNaiveL t ++ [] := by simp
  rw [e, parseNaiveCore_format t [] h trivial]

theorem parseOffsetL_z : parseOffsetL ['Z'] = some 0 := rfl

theorem parseOffsetL_utc : parseOffsetL ('+' :: (padL 2 0 ++ ':' :: padL 2 0)) = some 0 := by
  rfl

theorem parseRfc3339L_format_z (t : DT) (h : ValidDT t) :
    parseRfc3339L (formatNaiveL t ++ ['Z']) = some (t, 0) := by
  unfold parseRfc3339L
  rw [parseNaiveCore_format t ['Z'] h (by simp [FracStop, isDigitCh])]
  simp only [Option.some_bind]
  rw [parseOffsetL_z]
  simp only [Option.some_bind]

theorem parseRfc3339L_format_offset0 (t : DT) (h : ValidDT t) :
    parseRfc3339L (formatNaiveL t ++ ('+' :: (padL 2 0 ++ ':' :: padL 2 0))) = some (t, 0) := by
  unfold parseRfc3339L
  rw [parseNaiveCore_format t _ h (by simp [FracStop, isDigitCh])]
  simp only [Option.some_bind]
  rw [parseOffsetL_utc]
  simp only [Option.some_bind]

/-! ### String wrappers for the chrono text formats -/

/-- Rendering of a NaiveDate through its serde / %Y-%m-%d form. -/
def formatDateS (y m d : Nat) : String := String.mk (formatDateL y m d)

/-- Rendering of a NaiveDateTime through its serde / %Y-%m-%dT%H:%M:%S%.f form. -/
def formatNaiveS (t : DT) : String := String.mk (formatNaiveL t)

/-- Rendering of chrono DateTime::to_rfc3339 at UTC: the naive form followed
by a +00:00 offset. -/
def toRfc3339S (t : DT) : String :=
  String.mk (formatNaiveL t ++ ('+' :: (padL 2 0 ++ ':' :: padL 2 0)))

/-- Serde rendering of a DateTime of Utc: the naive form followed by Z. -/
def serUtcS (t : DT) : String := String.mk (formatNaiveL t ++ ['Z'])

/-- Model of chrono NaiveDate::parse_from_str with format %Y-%m-%d. -/
def naiveDateParse (s : String) : Option (Nat × Nat × Nat) := parseDateL s.data

/-- Model of chrono NaiveDateTime::parse_from_str with format
%Y-%m-%dT%H:%M:%S%.f. -/
def naiveDateTimeParse (s : String) : Option DT := parseNaiveL s.data

/-- Model of chrono DateTime::parse_from_rfc3339: components plus offset. -/
def rfc3339Parse (s : String) : Option (DT × Int) := parseRfc3339L s.data

/-- Conversion of parsed fixed-offset components to their UTC components
(chrono with_timezone(Utc) on the parse result). -/
def shiftDT (t : DT) (offSecs : Int) : DT :=
  if offSecs = 0 then t
  else
    { y := (epochDaysToDate ((dateToEpochDays t.y t.m t.d * 86400 +
        (((t.hh * 3600 + t.mi * 60 + t.ss : Nat)) : Int) - offSecs) / 86400)).1
      m := (epochDaysToDate ((dateToEpochDays t.y t.m t.d * 86400 +
        (((t.hh * 3600 + t.mi * 60 + t.ss : Nat)) : Int) - offSecs) / 86400)).2.1
      d := (epochDaysToDate ((dateToEpochDays t.y t.m t.d * 86400 +
        (((t.hh * 3600 + t.mi * 60 + t.ss : Nat)) : Int) - offSecs) / 86400)).2.2
      hh := ((dateToEpochDays t.y t.m t.d * 86400 +
        (((t.hh * 3600 + t.mi * 60 + t.ss : Nat)) : Int) - offSecs) % 86400).toNat / 3600
      mi := ((dateToEpochDays t.y t.m t.d * 86400 +
        (((t.hh * 3600 + t.mi * 60 + t.ss : Nat)) : Int) - offSecs) % 86400).toNat % 3600 / 60
      ss := ((dateToEpochDays t.y t.m t.d * 86400 +
        (((t.hh * 3600 + t.mi * 60 + t.ss : Nat)) : Int) - offSecs) % 86400).toNat % 60
      ns := t.ns }

/-! ### Arrow batch model -/

inductive ATimeUnit
  | second
  | millisecond
  | microsecond
  | nanosecond
deriving DecidableEq

/-- Arrow logical types reachable in this pipeline. -/
inductive ADataType
  | int64
  | float64
  | boolean
  | utf8
  | largeUtf8
  | date32
  | date64
  | timestamp (unit : ATimeUnit) (tz : Option String)
  | dictionary (value : ADataType)
deriving DecidableEq

/-- Cell value of an array; the concrete array kind is determined by the
column's declared type, as in arrow. -/
inductive Cell
  | i (n : Int)
  | s (str : String)
  | b (bv : Bool)
deriving DecidableEq

/-- A named, typed array: one column of a record batch. -/
structure Column where
  name : String
  dtype : ADataType
  cells : List (Option Cell)
deriving DecidableEq

/-- A record batch: ordered named equal-length columns. A DataFrame is
modelled as the single batch it carries after chunk normalization. -/
abbrev Batch := List Column

/-- Row count of a batch. -/
def heightOf (b : Batch) : Nat :=
  match b with
  | [] => 0
  | c :: _ => c.cells.length

/-- Error type of the library (src/error.rs), restricted to the variants the
embedded code can produce. -/
inductive PolarsSerdeError
  | emptyInput
  | invalidRowCount (expected actual : Nat)
  | conversionError (message : String)
deriving DecidableEq

/-- Monadic map over Except with fail-fast semantics, as a Rust loop with
early return. -/
def exMapM (f : α → Except PolarsSerdeError β) : List α → Except PolarsSerdeError (List β)
  | [] => .ok []
  | x :: xs => (f x).bind fun y => (exMapM f xs).map fun ys => y :: ys

/-- Monadic map over Option with fail-fast semantics. -/
def optMapM (f : α → Option β) : List α → Option (List β)
  | [] => some []
  | x :: xs => (f x).bind fun y => (optMapM f xs).map fun ys => y :: ys

theorem exMapM_ok (f : α → Except PolarsSerdeError β) (g : α → β) :
    ∀ l : List α, (∀ x ∈ l, f x = .ok (g x)) → exMapM f l = .ok (l.map g) := by
  intro l
  induction l with
  | nil => intro _; rfl
  | cons x xs ih =>
    intro h
    show (f x).bind _ = _
    rw [h x (List.mem_cons_self x xs)]
    show (exMapM f xs).map _ = _
    rw [ih (fun a ha => h a (List.mem_cons_of_mem x ha))]
    rfl

theorem optMapM_some (f : α → Option β) (g : α → β) :
    ∀ l : List α, (∀ x ∈ l, f x = some (g x)) → optMapM f l = some (l.map g) := by
  intro l
  induction l with
  | nil => intro _; rfl
  | cons x xs ih =>
    intro h
    show (f x).bind _ = _
    rw [h x (List.mem_cons_self x xs)]
    show (optMapM f xs).map _ = _
    rw [ih (fun a ha => h a (List.mem_cons_of_mem x ha))]
    rfl

/-! ### Forward reconciler (src/lib.rs) -/

/-- Per-cell body of convert_string_dates_to_date32: nulls pass through, a
string is parsed with %Y-%m-%d and turned into an i32 day count, an
unparseable string aborts the column with the offending text in the message. -/
def date_cell_to_date32 (oc : Option Cell) : Except PolarsSerdeError (Option Cell) :=
  match oc with
  | none => .ok none
  | some (Cell.s s) =>
    match naiveDateParse s with
    | some ymd => .ok (some (Cell.i (dateToEpochDays ymd.1 ymd.2.1 ymd.2.2)))
    | none => .error (.conversionError ("Failed to parse date string: " ++ s))
  | some _ => .error (.conversionError "unreachable: non-string cell in a string array")

/-- Embedding of convert_string_dates_to_date32 (src/lib.rs:309). The array
downcast succeeds exactly for Utf8 and LargeUtf8 columns. -/
def convert_string_dates_to_date32 (column : Column) :
    Except PolarsSerdeError (List (Option Cell)) :=
  if column.dtype = ADataType.utf8 ∨ column.dtype = ADataType.largeUtf8 then
    exMapM date_cell_to_date32 column.cells
  else
    .error (.conversionError "Expected string array (Utf8 or LargeUtf8) for date conversion")

/-- Embedding of parse_datetime_string (src/lib.rs:399): RFC 3339 for the UTC
case, %Y-%m-%dT%H:%M:%S%.f otherwise; a parsed instant outside the i64
nanosecond range silently becomes 0 (timestamp_nanos_opt().unwrap_or(0)). -/
def parse_datetime_string (datetime_str : String) (is_utc : Bool) :
    Except PolarsSerdeError Int :=
  if is_utc then
    match rfc3339Parse datetime_str with
    | some p => .ok ((timestampNanosOpt (dtToNanos p.1 - p.2 * 1000000000)).getD 0)
    | none =>
      .error (.conversionError ("Failed to parse UTC datetime string: " ++ datetime_str))
  else
    match naiveDateTimeParse datetime_str with
    | some t => .ok ((timestampNanosOpt (dtToNanos t)).getD 0)
    | none => .error (.conversionError ("Failed to parse datetime string: " ++ datetime_str))

/-- Per-cell body of convert_string_datetimes_to_timestamp. -/
def datetime_cell_to_timestamp (is_utc : Bool) (oc : Option Cell) :
    Except PolarsSerdeError (Option Cell) :=
  match oc with
  | none => .ok none
  | some (Cell.s s) => (parse_datetime_string s is_utc).map fun n => some (Cell.i n)
  | some _ => .error (.conversionError "unreachable: non-string cell in a string array")

/-- Embedding of convert_string_datetimes_to_timestamp (src/lib.rs:360). -/
def convert_string_datetimes_to_timestamp (column : Column) (timezone : Option String) :
    Except PolarsSerdeError (List (Option Cell)) :=
  if column.dtype = ADataType.utf8 ∨ column.dtype = ADataType.largeUtf8 then
    exMapM (datetime_cell_to_timestamp timezone.isSome) column.cells
  else
    .error (.conversionError "Expected string array (Utf8 or LargeUtf8) for datetime conversion")

/-- Column constructor shorthand. -/
def mkCol (n : String) (t : ADataType) (cs : List (Option Cell)) : Column :=
  { name := n, dtype := t, cells := cs }

/-- Loop body of convert_chrono_columns for one column. -/
def convert_one_column (chrono_types : List (String × String)) (column : Column) :
    Except PolarsSerdeError Column :=
  match List.lookup column.name chrono_types with
  | some tag =>
    if tag = "NaiveDate" then
      (convert_string_dates_to_date32 column).map fun cells =>
        mkCol column.name ADataType.date32 cells
    else if tag = "NaiveDateTime" then
      (convert_string_datetimes_to_timestamp column none).map fun cells =>
        mkCol column.name (ADataType.timestamp ATimeUnit.nanosecond none) cells
    else if tag = "DateTimeUtc" then
      (convert_string_datetimes_to_timestamp column (some "UTC")).map fun cells =>
        mkCol column.name (ADataType.timestamp ATimeUnit.nanosecond (some "UTC")) cells
    else .ok column
  | none => .ok column

/-- Embedding of convert_chrono_columns (src/lib.rs:423): rewrite each column
whose name carries a recognized chrono tag; every other column, including
columns with unrecognized wrapper tags, is kept as is. -/
def convert_chrono_columns (batch : Batch) (chrono_types : List (String × String)) :
    Except PolarsSerdeError Batch :=
  exMapM (convert_one_column chrono_types) batch

/-! ### Reverse reconciler (src/lib.rs) -/

/-- Per-cell body of convert_date32_to_string: a day count renders as
%Y-%m-%d text (chrono: epoch + Duration::days, then format). -/
def date32_cell_to_string (oc : Option Cell) : Except PolarsSerdeError (Option Cell) :=
  match oc with
  | none => .ok none
  | some (Cell.i days) =>
    .ok (some (Cell.s (formatDateS (epochDaysToDate days).1 (epochDaysToDate days).2.1
      (epochDaysToDate days).2.2)))
  | some _ => .error (.conversionError "unreachable: non-integer cell in a Date32 array")

/-- Embedding of convert_date32_to_string (src/lib.rs:488): the downcast
succeeds exactly for Date32 columns; day counts render as %Y-%m-%d text. -/
def convert_date32_to_string (column : Column) :
    Except PolarsSerdeError (List (Option Cell)) :=
  if column.dtype = ADataType.date32 then
    exMapM date32_cell_to_string column.cells
  else .error (.conversionError "Expected Date32 array for string conversion")

/-- Per-cell body of convert_timestamp_to_string: with a timezone the text is
RFC 3339, without it the %Y-%m-%dT%H:%M:%S%.f naive form. -/
def timestamp_cell_to_string (timezone : Option String) (oc : Option Cell) :
    Except PolarsSerdeError (Option Cell) :=
  match oc with
  | none => .ok none
  | some (Cell.i nanos) =>
    if timezone.isSome then .ok (some (Cell.s (toRfc3339S (nanosToDt nanos))))
    else .ok (some (Cell.s (formatNaiveS (nanosToDt nanos))))
  | some _ =>
    .error (.conversionError "unreachable: non-integer cell in a Timestamp array")

/-- Embedding of convert_timestamp_to_string (src/lib.rs:513): the downcast to
TimestampNanosecondArray succeeds exactly for nanosecond timestamp columns
(of any timezone). -/
def convert_timestamp_to_string (column : Column) (timezone : Option String) :
    Except PolarsSerdeError (List (Option Cell)) :=
  match column.dtype with
  | ADataType.timestamp ATimeUnit.nanosecond _ =>
    exMapM (timestamp_cell_to_string timezone) column.cells
  | _ => .error (.conversionError "Expected Timestamp array for string conversion")

/-- Model of the generic engine cast of a Date64 (milliseconds since epoch)
column to text (arrow compute::cast to Utf8). -/
def castDate64CellsToUtf8 (cells : List (Option Cell)) : List (Option Cell) :=
  cells.map fun oc => oc.map fun c =>
    match c with
    | Cell.i ms => Cell.s (formatNaiveS (nanosToDt (ms * 1000000)))
    | c => c

/-- Loop body of convert_from_chrono_columns for one column. -/
def unconvert_one_column (column : Column) : Except PolarsSerdeError Column :=
  match column.dtype with
  | ADataType.date32 =>
    (convert_date32_to_string column).map fun cells =>
      mkCol column.name ADataType.utf8 cells
  | ADataType.timestamp _ tz =>
    (convert_timestamp_to_string column tz).map fun cells =>
      mkCol column.name ADataType.utf8 cells
  | ADataType.date64 =>
    .ok (mkCol column.name ADataType.utf8 (castDate64CellsToUtf8 column.cells))
  | _ => .ok column

/-- Embedding of convert_from_chrono_columns (src/lib.rs:549): Date32 and
Timestamp columns go through the dedicated text conversions, Date64 through
the generic engine cast, everything else passes through unchanged. -/
def convert_from_chrono_columns (batch : Batch) : Except PolarsSerdeError Batch :=
  exMapM unconvert_one_column batch

/-- Loop body of convert_dictionary_to_strings for one column. -/
def undict_one_column (column : Column) : Except PolarsSerdeError Column :=
  match column.dtype with
  | ADataType.dictionary value =>
    if value = ADataType.utf8 then
      .ok (mkCol column.name ADataType.utf8 column.cells)
    else .ok column
  | _ => .ok column

/-- Embedding of convert_dictionary_to_strings (src/lib.rs:614): dictionary
columns with Utf8 values are recast to plain Utf8 (cells carry the logical
string values, which the cast preserves); all other columns pass through. -/
def convert_dictionary_to_strings (batch : Batch) : Except PolarsSerdeError Batch :=
  exMapM undict_one_column batch

/-! ### Record model and the tabular codec (serde_arrow, modelled) -/

/-- Shape of one record field as serde sees it: plain scalars and text,
recognized chrono types, or a single-value newtype wrapper around an inner
shape. An optional field is a nullable field of the same shape. -/
inductive FieldKind
  | i64
  | txt
  | boolKind
  | date
  | dtNaive
  | dtUtc
  | wrapper (wname : String) (inner : FieldKind)
deriving DecidableEq

/-- One field of the record type: serde field name, shape, optionality. -/
structure FieldSpec where
  fname : String
  kind : FieldKind
  nullable : Bool
deriving DecidableEq

/-- Runtime value of one field. -/
inductive FieldVal
  | vI (n : Int)
  | vS (s : String)
  | vB (bv : Bool)
  | vDate (y m d : Nat)
  | vNaive (t : DT)
  | vUtc (t : DT)
deriving DecidableEq

/-- A record: one optional value per field, in field order. -/
abbrev Row := List (Option FieldVal)

/-- Shape conformance of a value: chrono values are valid by construction in
chrono, wrappers are serde-transparent around their payload. -/
def typedValB : FieldKind → FieldVal → Bool
  | .i64, .vI _ => true
  | .txt, .vS _ => true
  | .boolKind, .vB _ => true
  | .date, .vDate y m d => decide (ValidYMD y m d)
  | .dtNaive, .vNaive t => decide (ValidDT t)
  | .dtUtc, .vUtc t => decide (ValidDT t)
  | .wrapper _ inner, v => typedValB inner v
  | _, _ => false

/-- Conformance of an optional field value to its spec. -/
def fieldOKb (spec : FieldSpec) (ov : Option FieldVal) : Bool :=
  match ov with
  | none => spec.nullable
  | some v => typedValB spec.kind v

/-- Conformance of a record to the record type. -/
def rowOKb : List FieldSpec → Row → Bool
  | [], [] => true
  | spec :: rt, ov :: r => fieldOKb spec ov && rowOKb rt r
  | _, _ => false

/-- Representability of a value's instant as i64 nanoseconds since the epoch;
true for every non-timestamp value. -/
def inRangeValB : FieldVal → Bool
  | .vNaive t => decide (i64Min ≤ dtToNanos t ∧ dtToNanos t ≤ i64Max)
  | .vUtc t => decide (i64Min ≤ dtToNanos t ∧ dtToNanos t ≤ i64Max)
  | _ => true

def inRangeRowB (r : Row) : Bool :=
  r.all fun ov => match ov with | none => true | some v => inRangeValB v

/-- Arrow type a field traces to through serde_arrow: chrono values serialize
as strings, so they trace to the codec's default string type. -/
def arrowTypeOf : FieldKind → ADataType
  | .i64 => ADataType.int64
  | .txt => ADataType.largeUtf8
  | .boolKind => ADataType.boolean
  | .date => ADataType.largeUtf8
  | .dtNaive => ADataType.largeUtf8
  | .dtUtc => ADataType.largeUtf8
  | .wrapper _ inner => arrowTypeOf inner

/-- Cell a field value encodes to through the codec: chrono values pass
through their serde string forms, wrappers are transparent. The fallback for
a shape mismatch is never reached on rows conforming to the record type. -/
def encodeVal : FieldKind → FieldVal → Cell
  | .i64, .vI n => Cell.i n
  | .txt, .vS s => Cell.s s
  | .boolKind, .vB bv => Cell.b bv
  | .date, .vDate y m d => Cell.s (formatDateS y m d)
  | .dtNaive, .vNaive t => Cell.s (formatNaiveS t)
  | .dtUtc, .vUtc t => Cell.s (serUtcS t)
  | .wrapper _ inner, v => encodeVal inner v
  | _, _ => Cell.s ""

/-- Model of serde_arrow to_record_batch: one column per field in field
order, row i of each column from record i. -/
def to_record_batch : List FieldSpec → List Row → Batch
  | [], _ => []
  | spec :: rt, rows =>
    { name := spec.fname
      dtype := arrowTypeOf spec.kind
      cells := rows.map fun r => (r.getD 0 none).map (encodeVal spec.kind) } ::
    to_record_batch rt (rows.map fun r => r.drop 1)

/-- Embedding of detect_chrono_types / TypeDetector (src/lib.rs:143-305) run
on the first record: chrono fields (directly or under one Option) are tagged
by type name; a newtype wrapper field records its wrapper name, but only when
the traversal reaches the value (a None option short-circuits serialization
before serialize_newtype_struct); integer, text and boolean fields are never
recorded. -/
def detect_chrono_types : List FieldSpec → Row → List (String × String)
  | [], _ => []
  | spec :: rt, r0 =>
    match spec.kind with
    | .date => (spec.fname, "NaiveDate") :: detect_chrono_types rt (r0.drop 1)
    | .dtNaive => (spec.fname, "NaiveDateTime") :: detect_chrono_types rt (r0.drop 1)
    | .dtUtc => (spec.fname, "DateTimeUtc") :: detect_chrono_types rt (r0.drop 1)
    | .wrapper wname _ =>
      match r0.getD 0 none with
      | some _ => (spec.fname, wname) :: detect_chrono_types rt (r0.drop 1)
      | none => detect_chrono_types rt (r0.drop 1)
    | _ => detect_chrono_types rt (r0.drop 1)

/-- Value a cell decodes to for a field shape, through serde deserialization
(chrono types deserialize from their text forms; an RFC 3339 offset is folded
into UTC components). -/
def decodeVal : FieldKind → Cell → Option FieldVal
  | .i64, Cell.i n => some (FieldVal.vI n)
  | .txt, Cell.s s => some (FieldVal.vS s)
  | .boolKind, Cell.b bv => some (FieldVal.vB bv)
  | .date, Cell.s s => (naiveDateParse s).map fun ymd => FieldVal.vDate ymd.1 ymd.2.1 ymd.2.2
  | .dtNaive, Cell.s s => (naiveDateTimeParse s).map FieldVal.vNaive
  | .dtUtc, Cell.s s => (rfc3339Parse s).map fun p => FieldVal.vUtc (shiftDT p.1 p.2)
  | .wrapper _ inner, c => decodeVal inner c
  | _, _ => none

/-- Decoding of one optional cell against a field spec: null is accepted only
for nullable fields. -/
def decodeField (spec : FieldSpec) (oc : Option Cell) : Option (Option FieldVal) :=
  match oc with
  | none => if spec.nullable then some none else none
  | some c => (decodeVal spec.kind c).map some

/-- Decoding of row i from spec/column pairs. -/
def decodeRowAt (pairs : List (FieldSpec × Column)) (i : Nat) : Option Row :=
  optMapM (fun p => decodeField p.1 (p.2.cells.getD i none)) pairs

/-- Model of serde_arrow from_record_batch for the record type: columns must
line up with the record fields by name, and every row must decode. -/
def from_record_batch (rt : List FieldSpec) (b : Batch) :
    Except PolarsSerdeError (List Row) :=
  if b.map Column.name = rt.map FieldSpec.fname then
    match optMapM (decodeRowAt (rt.zip b)) (List.range (heightOf b)) with
    | some rows => .ok rows
    | none => .error (.conversionError "Failed to deserialize batch")
  else .error (.conversionError "Failed to deserialize batch")

/-! ### Public conversion API (src/lib.rs) -/

/-- Embedding of to_dataframe (src/lib.rs:726): fail fast on empty input,
derive the schema from the type, detect chrono tags on the first record,
encode through the codec, reconcile chrono columns, normalize dictionary
columns, and hand the batch to the engine bridge (a DataFrame is the batch). -/
def to_dataframe (rt : List FieldSpec) (rows : List Row) :
    Except PolarsSerdeError Batch :=
  if rows.isEmpty then .error PolarsSerdeError.emptyInput
  else
    (convert_chrono_columns (to_record_batch rt rows)
        (detect_chrono_types rt (rows.getD 0 []))).bind fun converted =>
    convert_dictionary_to_strings converted

/-- Embedding of from_dataframe (src/lib.rs:687): normalize the frame to its
batches (one batch after as_single_chunk), reverse the chrono reconciliation,
and decode. -/
def from_dataframe (rt : List FieldSpec) (df : Batch) :
    Except PolarsSerdeError (List Row) :=
  (convert_from_chrono_columns df).bind fun converted =>
  from_record_batch rt converted

/-! ### Structural lemmas about the monadic maps -/

def colD (b : Batch) (j : Nat) : Column :=
  b.getD j { name := "", dtype := ADataType.int64, cells := [] }

def specD (rt : List FieldSpec) (j : Nat) : FieldSpec :=
  rt.getD j { fname := "", kind := FieldKind.i64, nullable := false }

theorem exMapM_cons_ok {f : α → Except PolarsSerdeError β} {x : α} {xs : List α}
    {l' : List β} (h : exMapM f (x :: xs) = .ok l') :
    ∃ y ys, f x = .ok y ∧ exMapM f xs = .ok ys ∧ l' = y :: ys := by
  unfold exMapM at h
  cases hfx : f x with
  | error e => rw [hfx] at h; exact absurd h (by simp [Except.bind])
  | ok y =>
    rw [hfx] at h
    simp only [Except.bind] at h
    cases hxs : exMapM f xs with
    | error e => rw [hxs] at h; exact absurd h (by simp [Except.map])
    | ok ys =>
      rw [hxs] at h
      simp only [Except.map] at h
      cases h
      exact ⟨y, ys, rfl, rfl, rfl⟩

theorem exMapM_ok_length {f : α → Except PolarsSerdeError β} :
    ∀ {l : List α} {l' : List β}, exMapM f l = .ok l' → l'.length = l.length := by
  intro l
  induction l with
  | nil =>
    intro l' h
    unfold exMapM at h
    cases h
    rfl
  | cons x xs ih =>
    intro l' h
    obtain ⟨y, ys, _, hxs, rfl⟩ := exMapM_cons_ok h
    simp [ih hxs]

theorem exMapM_ok_getD {f : α → Except PolarsSerdeError β} (da : α) (db : β) :
    ∀ {l : List α} {l' : List β}, exMapM f l = .ok l' →
      ∀ j, j < l.length → f (l.getD j da) = .ok (l'.getD j db) := by
  intro l
  induction l with
  | nil => intro l' _ j hj; simp at hj
  | cons x xs ih =>
    intro l' h j hj
    obtain ⟨y, ys, hx, hxs, rfl⟩ := exMapM_cons_ok h
    cases j with
    | zero => simpa using hx
    | succ k =>
      have : k < xs.length := by simpa using hj
      simpa using ih hxs k this

theorem exMapM_ok_mem {f : α → Except PolarsSerdeError β} :
    ∀ {l : List α} {l' : List β}, exMapM f l = .ok l' →
      ∀ x ∈ l, ∃ y, f x = .ok y := by
  intro l
  induction l with
  | nil => intro l' _ x hx; simp at hx
  | cons a xs ih =>
    intro l' h x hx
    obtain ⟨y, ys, ha, hxs, rfl⟩ := exMapM_cons_ok h
    rcases List.mem_cons.mp hx with rfl | hx
    · exact ⟨y, ha⟩
    · exact ih hxs x hx

theorem exMapM_error_elem {f : α → Except PolarsSerdeError β} :
    ∀ {l : List α} {e : PolarsSerdeError}, exMapM f l = .error e →
      ∃ x ∈ l, f x = .error e := by
  intro l
  induction l with
  | nil => intro e h; exact absurd h (by simp [exMapM])
  | cons x xs ih =>
    intro e h
    unfold exMapM at h
    cases hfx : f x with
    | error e' =>
      rw [hfx] at h
      simp only [Except.bind] at h
      cases h
      exact ⟨x, List.mem_cons_self x xs, hfx⟩
    | ok y =>
      rw [hfx] at h
      simp only [Except.bind] at h
      cases hxs : exMapM f xs with
      | error e' =>
        rw [hxs] at h
        simp only [Except.map] at h
        cases h
        obtain ⟨z, hz, hfz⟩ := ih hxs
        exact ⟨z, List.mem_cons_of_mem x hz, hfz⟩
      | ok ys =>
        rw [hxs] at h
        exact absurd h (by simp [Except.map])

theorem optMapM_some_length {f : α → Option β} :
    ∀ {l : List α} {l' : List β}, optMapM f l = some l' → l'.length = l.length := by
  intro l
  induction l with
  | nil =>
    intro l' h
    cases h
    rfl
  | cons x xs ih =>
    intro l' h
    unfold optMapM at h
    cases hfx : f x with
    | none => rw [hfx] at h; exact absurd h (by simp)
    | some y =>
      rw [hfx] at h
      simp only [Option.some_bind] at h
      cases hxs : optMapM f xs with
      | none => rw [hxs] at h; exact absurd h (by simp)
      | some ys =>
        rw [hxs] at h
        rw [show Option.map (fun ys => y :: ys) (some ys) = some (y :: ys) from rfl] at h
        cases h
        simp [ih hxs]

theorem getD_map_lt (f : α → β) (d : α) (d' : β) :
    ∀ (l : List α) (i : Nat), i < l.length → (l.map f).getD i d' = f (l.getD i d) := by
  intro l
  induction l with
  | nil => intro i hi; simp at hi
  | cons x xs ih =>
    intro i hi
    cases i with
    | zero => rfl
    | succ k =>
      have : k < xs.length := by simpa using hi
      simpa using ih k this

theorem getD_drop_one (d : Option FieldVal) :
    ∀ (r : Row) (j : Nat), (r.drop 1).getD j d = r.getD (j + 1) d := by
  intro r j
  cases r with
  | nil => rfl
  | cons a l => rfl

theorem range_map_getD (d : α) :
    ∀ l : List α, (List.range l.length).map (fun i => l.getD i d) = l := by
  intro l
  induction l with
  | nil => rfl
  | cons x xs ih =>
    show (List.range (xs.length + 1)).map (fun i => (x :: xs).getD i d) = x :: xs
    rw [List.range_succ_eq_map]
    simp only [List.map_cons, List.map_map, Function.comp]
    show x :: (List.range xs.length).map (fun i => xs.getD i d) = x :: xs
    rw [ih]

/-! ### Structure of the encoded batch and the signal map -/

theorem to_record_batch_length :
    ∀ (rt : List FieldSpec) (rows : List Row), (to_record_batch rt rows).length = rt.length := by
  intro rt
  induction rt with
  | nil => intro rows; rfl
  | cons spec rt ih =>
    intro rows
    show (to_record_batch (spec :: rt) rows).length = rt.length + 1
    unfold to_record_batch
    simp [ih]

theorem to_record_batch_getD :
    ∀ (rt : List FieldSpec) (rows : List Row) (j : Nat), j < rt.length →
      colD (to_record_batch rt rows) j =
        { name := (specD rt j).fname
          dtype := arrowTypeOf (specD rt j).kind
          cells := rows.map fun r => (r.getD j none).map (encodeVal (specD rt j).kind) } := by
  intro rt
  induction rt with
  | nil => intro rows j hj; simp at hj
  | cons spec rt ih =>
    intro rows j hj
    cases j with
    | zero =>
      show colD (to_record_batch (spec :: rt) rows) 0 = _
      unfold to_record_batch colD specD
      rfl
    | succ k =>
      have hk : k < rt.length := by simpa using hj
      have := ih (rows.map fun r => r.drop 1) k hk
      unfold colD specD at this ⊢
      show (to_record_batch (spec :: rt) rows).getD (k + 1) _ = _
      unfold to_record_batch
      simp only [List.getD_cons_succ]
      rw [this]
      simp only [List.map_map]
      congr 1
      apply List.map_congr_left
      intro r _
      simp only [Function.comp]
      rw [getD_drop_one]

theorem getD_mem_of_lt (d : α) :
    ∀ (l : List α) (i : Nat), i < l.length → l.getD i d ∈ l := by
  intro l
  induction l with
  | nil => intro i hi; simp at hi
  | cons x xs ih =>
    intro i hi
    cases i with
    | zero => exact List.mem_cons_self x xs
    | succ k =>
      have : k < xs.length := by simpa using hi
      exact List.mem_cons_of_mem x (ih k this)

theorem lookup_eq_none_of_names (k : String) :
    ∀ assoc : List (String × String), (∀ p ∈ assoc, p.1 ≠ k) → List.lookup k assoc = none := by
  intro assoc
  induction assoc with
  | nil => intro _; rfl
  | cons p es ih =>
    intro h
    have hne : p.1 ≠ k := h p (List.mem_cons_self p es)
    show List.lookup k (p :: es) = none
    obtain ⟨a, b⟩ := p
    simp only [List.lookup]
    have : (k == a) = false := beq_eq_false_iff_ne.mpr (fun he => hne (by simp_all))
    rw [this]
    exact ih (fun q hq => h q (List.mem_cons_of_mem _ hq))

theorem detect_chrono_keys :
    ∀ (rt : List FieldSpec) (r0 : Row) (p : String × String),
      p ∈ detect_chrono_types rt r0 → p.1 ∈ rt.map FieldSpec.fname := by
  intro rt
  induction rt with
  | nil => intro r0 p hp; simp [detect_chrono_types] at hp
  | cons spec rt ih =>
    intro r0 p hp
    unfold detect_chrono_types at hp
    have step : p ∈ detect_chrono_types rt (r0.drop 1) → p.1 ∈ (spec :: rt).map FieldSpec.fname := by
      intro hmem
      simp only [List.map_cons]
      exact List.mem_cons_of_mem _ (ih (r0.drop 1) p hmem)
    cases hk : spec.kind with
    | date =>
      rw [hk] at hp
      rcases List.mem_cons.mp hp with rfl | hp
      · simp
      · exact step hp
    | dtNaive =>
      rw [hk] at hp
      rcases List.mem_cons.mp hp with rfl | hp
      · simp
      · exact step hp
    | dtUtc =>
      rw [hk] at hp
      rcases List.mem_cons.mp hp with rfl | hp
      · simp
      · exact step hp
    | wrapper wname inner =>
      rw [hk] at hp
      cases hv : r0.getD 0 none with
      | none => rw [hv] at hp; exact step hp
      | some v =>
        rw [hv] at hp
        rcases List.mem_cons.mp hp with rfl | hp
        · simp
        · exact step hp
    | i64 => rw [hk] at hp; exact step hp
    | txt => rw [hk] at hp; exact step hp
    | boolKind => rw [hk] at hp; exact step hp

/-- Kinds handled without a wrapper marker. -/
def isPlainKind : FieldKind → Bool
  | .wrapper _ _ => false
  | _ => true

/-- Signal-map tag a plain field kind receives from the detector. -/
def tagOfKind : FieldKind → Option String
  | .date => some "NaiveDate"
  | .dtNaive => some "NaiveDateTime"
  | .dtUtc => some "DateTimeUtc"
  | _ => none

theorem detect_lookup_plain :
    ∀ (rt : List FieldSpec) (r0 : Row), (rt.map FieldSpec.fname).Nodup →
      ∀ j < rt.length, isPlainKind (specD rt j).kind = true →
        List.lookup (specD rt j).fname (detect_chrono_types rt r0) =
          tagOfKind (specD rt j).kind := by
  intro rt
  induction rt with
  | nil => intro r0 _ j hj; simp at hj
  | cons spec rt ih =>
    intro r0 hnd j hj hplain
    have hnd' : (rt.map FieldSpec.fname).Nodup := (List.nodup_cons.mp hnd).2
    have hhead : spec.fname ∉ rt.map FieldSpec.fname := (List.nodup_cons.mp hnd).1
    cases j with
    | zero =>
      have hs : specD (spec :: rt) 0 = spec := rfl
      rw [hs] at hplain ⊢
      have hnotail : List.lookup spec.fname (detect_chrono_types rt (r0.drop 1)) = none := by
        apply lookup_eq_none_of_names
        intro p hp he
        exact hhead (he ▸ detect_chrono_keys rt (r0.drop 1) p hp)
      unfold detect_chrono_types
      cases hk : spec.kind with
      | date => simp [List.lookup, tagOfKind]
      | dtNaive => simp [List.lookup, tagOfKind]
      | dtUtc => simp [List.lookup, tagOfKind]
      | wrapper wname inner => rw [hk] at hplain; simp [isPlainKind] at hplain
      | i64 => simpa [tagOfKind] using hnotail
      | txt => simpa [tagOfKind] using hnotail
      | boolKind => simpa [tagOfKind] using hnotail
    | succ k =>
      have hk : k < rt.length := by simpa using hj
      have hs : specD (spec :: rt) (k + 1) = specD rt k := rfl
      rw [hs] at hplain ⊢
      have htarg : (specD rt k).fname ∈ rt.map FieldSpec.fname := by
        unfold specD
        exact List.mem_map_of_mem _ (getD_mem_of_lt _ rt k hk)
      have hne : spec.fname ≠ (specD rt k).fname := fun he => hhead (he ▸ htarg)
      have hbeq : ((specD rt k).fname == spec.fname) = false :=
        beq_eq_false_iff_ne.mpr (fun he => hne he.symm)
      have htail := ih (r0.drop 1) hnd' k hk hplain
      unfold detect_chrono_types
      cases hkk : spec.kind with
      | date => simpa [List.lookup, hbeq] using htail
      | dtNaive => simpa [List.lookup, hbeq] using htail
      | dtUtc => simpa [List.lookup, hbeq] using htail
      | wrapper wname inner =>
        cases hv : r0.getD 0 none with
        | none => exact htail
        | some v => simpa [List.lookup, hbeq] using htail
      | i64 => exact htail
      | txt => exact htail
      | boolKind => exact htail

/-! ### Expected shapes of the batch along the pipeline -/

/-- Column type after the forward reconciler, per plain field kind. -/
def fwdType : FieldKind → ADataType
  | .date => ADataType.date32
  | .dtNaive => ADataType.timestamp ATimeUnit.nanosecond none
  | .dtUtc => ADataType.timestamp ATimeUnit.nanosecond (some "UTC")
  | k => arrowTypeOf k

/-- Cell a value occupies after the forward reconciler. -/
def fwdCellVal : FieldKind → FieldVal → Cell
  | .date => fun v =>
    match v with
    | .vDate y m d => Cell.i (dateToEpochDays y m d)
    | v => encodeVal FieldKind.date v
  | .dtNaive => fun v =>
    match v with
    | .vNaive t => Cell.i (dtToNanos t)
    | v => encodeVal FieldKind.dtNaive v
  | .dtUtc => fun v =>
    match v with
    | .vUtc t => Cell.i (dtToNanos t)
    | v => encodeVal FieldKind.dtUtc v
  | k => encodeVal k

/-- Batch produced by codec encoding followed by the forward reconciler. -/
def fwdBatch : List FieldSpec → List Row → Batch
  | [], _ => []
  | spec :: rt, rows =>
    { name := spec.fname
      dtype := fwdType spec.kind
      cells := rows.map fun r => (r.getD 0 none).map (fwdCellVal spec.kind) } ::
    fwdBatch rt (rows.map fun r => r.drop 1)

/-- Column type after the reverse reconciler, per plain field kind. -/
def revType : FieldKind → ADataType
  | .date => ADataType.utf8
  | .dtNaive => ADataType.utf8
  | .dtUtc => ADataType.utf8
  | k => arrowTypeOf k

/-- Cell a value occupies after the reverse reconciler. -/
def revCellVal : FieldKind → FieldVal → Cell
  | .date => fun v =>
    match v with
    | .vDate y m d => Cell.s (formatDateS y m d)
    | v => encodeVal FieldKind.date v
  | .dtNaive => fun v =>
    match v with
    | .vNaive t => Cell.s (formatNaiveS t)
    | v => encodeVal FieldKind.dtNaive v
  | .dtUtc => fun v =>
    match v with
    | .vUtc t => Cell.s (toRfc3339S t)
    | v => encodeVal FieldKind.dtUtc v
  | k => encodeVal k

/-- Batch handed back to the codec by the reverse reconciler. -/
def revBatch : List FieldSpec → List Row → Batch
  | [], _ => []
  | spec :: rt, rows =>
    { name := spec.fname
      dtype := revType spec.kind
      cells := rows.map fun r => (r.getD 0 none).map (revCellVal spec.kind) } ::
    revBatch rt (rows.map fun r => r.drop 1)

/-! ### Per-cell conversion round trips -/

theorem naiveDateParse_format (y m d : Nat) (h : ValidYMD y m d) :
    naiveDateParse (formatDateS y m d) = some (y, m, d) := by
  unfold naiveDateParse formatDateS
  rw [show (String.mk (formatDateL y m d)).data = formatDateL y m d from rfl]
  exact parseDateL_format y m d h

theorem naiveDateTimeParse_format (t : DT) (h : ValidDT t) :
    naiveDateTimeParse (formatNaiveS t) = some t := by
  unfold naiveDateTimeParse formatNaiveS
  rw [show (String.mk (formatNaiveL t)).data = formatNaiveL t from rfl]
  exact parseNaiveL_format t h

theorem rfc3339Parse_ser (t : DT) (h : ValidDT t) :
    rfc3339Parse (serUtcS t) = some (t, 0) := by
  unfold rfc3339Parse serUtcS
  rw [show (String.mk (formatNaiveL t ++ ['Z'])).data = formatNaiveL t ++ ['Z'] from rfl]
  exact parseRfc3339L_format_z t h

theorem rfc3339Parse_toRfc3339 (t : DT) (h : ValidDT t) :
    rfc3339Parse (toRfc3339S t) = some (t, 0) := by
  unfold rfc3339Parse toRfc3339S
  rw [show (String.mk (formatNaiveL t ++ ('+' :: (padL 2 0 ++ ':' :: padL 2 0)))).data =
    formatNaiveL t ++ ('+' :: (padL 2 0 ++ ':' :: padL 2 0)) from rfl]
  exact parseRfc3339L_format_offset0 t h

theorem fwd_cell_date (y m d : Nat) (h : ValidYMD y m d) :
    date_cell_to_date32 (some (Cell.s (formatDateS y m d))) =
      .ok (some (Cell.i (dateToEpochDays y m d))) := by
  show (match naiveDateParse (formatDateS y m d) with
    | some ymd => Except.ok (some (Cell.i (dateToEpochDays ymd.1 ymd.2.1 ymd.2.2)))
    | none => Except.error (PolarsSerdeError.conversionError
        ("Failed to parse date string: " ++ formatDateS y m d))) =
    Except.ok (some (Cell.i (dateToEpochDays y m d)))
  rw [naiveDateParse_format y m d h]

theorem parse_datetime_string_naive_fmt (t : DT) (h : ValidDT t)
    (hr : i64Min ≤ dtToNanos t ∧ dtToNanos t ≤ i64Max) :
    parse_datetime_string (formatNaiveS t) false = .ok (dtToNanos t) := by
  unfold parse_datetime_string
  rw [if_neg (show ¬(false = true) from by decide)]
  rw [naiveDateTimeParse_format t h]
  show Except.ok ((timestampNanosOpt (dtToNanos t)).getD 0) = _
  unfold timestampNanosOpt
  rw [if_pos hr]
  rfl

theorem parse_datetime_string_utc_fmt (t : DT) (h : ValidDT t)
    (hr : i64Min ≤ dtToNanos t ∧ dtToNanos t ≤ i64Max) :
    parse_datetime_string (serUtcS t) true = .ok (dtToNanos t) := by
  unfold parse_datetime_string
  rw [if_pos (show true = true from rfl)]
  rw [rfc3339Parse_ser t h]
  show Except.ok ((timestampNanosOpt (dtToNanos t - 0 * 1000000000)).getD 0) = _
  have e : dtToNanos t - 0 * 1000000000 = dtToNanos t := by ring
  rw [e]
  unfold timestampNanosOpt
  rw [if_pos hr]
  rfl

theorem fwd_cell_naive (t : DT) (h : ValidDT t)
    (hr : i64Min ≤ dtToNanos t ∧ dtToNanos t ≤ i64Max) :
    datetime_cell_to_timestamp false (some (Cell.s (formatNaiveS t))) =
      .ok (some (Cell.i (dtToNanos t))) := by
  show (parse_datetime_string (formatNaiveS t) false).map (fun n => some (Cell.i n)) = _
  rw [parse_datetime_string_naive_fmt t h hr]
  rfl

theorem fwd_cell_utc (t : DT) (h : ValidDT t)
    (hr : i64Min ≤ dtToNanos t ∧ dtToNanos t ≤ i64Max) :
    datetime_cell_to_timestamp true (some (Cell.s (serUtcS t))) =
      .ok (some (Cell.i (dtToNanos t))) := by
  show (parse_datetime_string (serUtcS t) true).map (fun n => some (Cell.i n)) = _
  rw [parse_datetime_string_utc_fmt t h hr]
  rfl

theorem rev_cell_date (y m d : Nat) (h : ValidYMD y m d) :
    formatDateS (epochDaysToDate (dateToEpochDays y m d)).1
      (epochDaysToDate (dateToEpochDays y m d)).2.1
      (epochDaysToDate (dateToEpochDays y m d)).2.2 = formatDateS y m d := by
  rw [epochDaysToDate_dateToEpochDays y m d h]

theorem dec_cell_date (y m d : Nat) (h : ValidYMD y m d) :
    decodeVal FieldKind.date (Cell.s (formatDateS y m d)) = some (FieldVal.vDate y m d) := by
  unfold decodeVal
  rw [naiveDateParse_format y m d h]
  rfl

theorem dec_cell_naive (t : DT) (h : ValidDT t) :
    decodeVal FieldKind.dtNaive (Cell.s (formatNaiveS t)) = some (FieldVal.vNaive t) := by
  unfold decodeVal
  rw [naiveDateTimeParse_format t h]
  rfl

theorem dec_cell_utc (t : DT) (h : ValidDT t) :
    decodeVal FieldKind.dtUtc (Cell.s (toRfc3339S t)) = some (FieldVal.vUtc t) := by
  unfold decodeVal
  rw [rfc3339Parse_toRfc3339 t h]
  show some (FieldVal.vUtc (shiftDT t 0)) = some (FieldVal.vUtc t)
  rw [show shiftDT t 0 = t from by unfold shiftDT; rw [if_pos rfl]]


/-! ### Per-column characterizations of the reconciler loop bodies -/

theorem convert_one_column_none (tags : List (String × String)) (col : Column)
    (h : List.lookup col.name tags = none) :
    convert_one_column tags col = .ok col := by
  unfold convert_one_column
  rw [h]

theorem convert_one_column_date (tags : List (String × String)) (col : Column)
    (h : List.lookup col.name tags = some "NaiveDate") :
    convert_one_column tags col =
      (convert_string_dates_to_date32 col).map fun cells =>
        mkCol col.name ADataType.date32 cells := by
  unfold convert_one_column
  rw [h]
  rfl

theorem convert_one_column_naivedt (tags : List (String × String)) (col : Column)
    (h : List.lookup col.name tags = some "NaiveDateTime") :
    convert_one_column tags col =
      (convert_string_datetimes_to_timestamp col none).map fun cells =>
        mkCol col.name (ADataType.timestamp ATimeUnit.nanosecond none) cells := by
  unfold convert_one_column
  rw [h]
  rfl

theorem convert_one_column_utcdt (tags : List (String × String)) (col : Column)
    (h : List.lookup col.name tags = some "DateTimeUtc") :
    convert_one_column tags col =
      (convert_string_datetimes_to_timestamp col (some "UTC")).map fun cells =>
        mkCol col.name (ADataType.timestamp ATimeUnit.nanosecond (some "UTC")) cells := by
  unfold convert_one_column
  rw [h]
  rfl

theorem convert_one_column_other (tags : List (String × String)) (col : Column)
    (tag : String) (h : List.lookup col.name tags = some tag)
    (h1 : tag ≠ "NaiveDate") (h2 : tag ≠ "NaiveDateTime") (h3 : tag ≠ "DateTimeUtc") :
    convert_one_column tags col = .ok col := by
  unfold convert_one_column
  rw [h]
  show (if tag = "NaiveDate" then
      (convert_string_dates_to_date32 col).map fun cells =>
        mkCol col.name ADataType.date32 cells
    else if tag = "NaiveDateTime" then
      (convert_string_datetimes_to_timestamp col none).map fun cells =>
        mkCol col.name (ADataType.timestamp ATimeUnit.nanosecond none) cells
    else if tag = "DateTimeUtc" then
      (convert_string_datetimes_to_timestamp col (some "UTC")).map fun cells =>
        mkCol col.name (ADataType.timestamp ATimeUnit.nanosecond (some "UTC")) cells
    else .ok col) = .ok col
  rw [if_neg h1, if_neg h2, if_neg h3]

theorem unconvert_one_column_date32 (col : Column) (h : col.dtype = ADataType.date32) :
    unconvert_one_column col =
      (convert_date32_to_string col).map fun cells => mkCol col.name ADataType.utf8 cells := by
  obtain ⟨nm, dt, cs⟩ := col
  cases h
  rfl

theorem unconvert_one_column_timestamp (col : Column) (u : ATimeUnit) (tz : Option String)
    (h : col.dtype = ADataType.timestamp u tz) :
    unconvert_one_column col =
      (convert_timestamp_to_string col tz).map fun cells =>
        mkCol col.name ADataType.utf8 cells := by
  obtain ⟨nm, dt, cs⟩ := col
  cases h
  rfl

theorem unconvert_one_column_date64 (col : Column) (h : col.dtype = ADataType.date64) :
    unconvert_one_column col =
      .ok (mkCol col.name ADataType.utf8 (castDate64CellsToUtf8 col.cells)) := by
  obtain ⟨nm, dt, cs⟩ := col
  cases h
  rfl

/-- Column types the reverse reconciler leaves untouched. -/
def untouchedByRev : ADataType → Bool
  | ADataType.date32 => false
  | ADataType.timestamp _ _ => false
  | ADataType.date64 => false
  | _ => true

theorem unconvert_one_column_pass (col : Column) (h : untouchedByRev col.dtype = true) :
    unconvert_one_column col = .ok col := by
  obtain ⟨nm, dt, cs⟩ := col
  cases dt with
  | date32 => simp [untouchedByRev] at h
  | timestamp u tz => simp [untouchedByRev] at h
  | date64 => simp [untouchedByRev] at h
  | int64 => rfl
  | float64 => rfl
  | boolean => rfl
  | utf8 => rfl
  | largeUtf8 => rfl
  | dictionary v => rfl

theorem undict_one_column_eq (col : Column) :
    undict_one_column col =
      .ok (if col.dtype = ADataType.dictionary ADataType.utf8 then
        mkCol col.name ADataType.utf8 col.cells else col) := by
  obtain ⟨nm, dt, cs⟩ := col
  cases dt with
  | dictionary v =>
    by_cases hv : v = ADataType.utf8
    · subst hv
      rw [if_pos rfl]
      rfl
    · rw [if_neg (show ¬(ADataType.dictionary v = ADataType.dictionary ADataType.utf8) from
        by simp [hv])]
      show undict_one_column (mkCol nm (ADataType.dictionary v) cs) =
        .ok (mkCol nm (ADataType.dictionary v) cs)
      unfold undict_one_column mkCol
      show (if v = ADataType.utf8 then
          Except.ok (mkCol nm ADataType.utf8 cs)
        else Except.ok { name := nm, dtype := ADataType.dictionary v, cells := cs }) = _
      rw [if_neg hv]
  | int64 => rw [if_neg (by simp)]; rfl
  | float64 => rw [if_neg (by simp)]; rfl
  | boolean => rw [if_neg (by simp)]; rfl
  | utf8 => rw [if_neg (by simp)]; rfl
  | largeUtf8 => rw [if_neg (by simp)]; rfl
  | date32 => rw [if_neg (by simp)]; rfl
  | date64 => rw [if_neg (by simp)]; rfl
  | timestamp u tz => rw [if_neg (by simp)]; rfl

theorem convert_string_dates_mkCol_large (nm : String) (cs : List (Option Cell)) :
    convert_string_dates_to_date32 (mkCol nm ADataType.largeUtf8 cs) =
      exMapM date_cell_to_date32 cs := by
  unfold convert_string_dates_to_date32
  split
  next => rfl
  next h => exact absurd (Or.inr rfl) h

theorem convert_string_datetimes_mkCol_large (nm : String) (cs : List (Option Cell))
    (tz : Option String) :
    convert_string_datetimes_to_timestamp (mkCol nm ADataType.largeUtf8 cs) tz =
      exMapM (datetime_cell_to_timestamp tz.isSome) cs := by
  unfold convert_string_datetimes_to_timestamp
  split
  next => rfl
  next h => exact absurd (Or.inr rfl) h

/-! ### Batch-level pipeline steps -/

theorem rowOKb_cons_shape {spec : FieldSpec} {rt : List FieldSpec} {r : Row}
    (h : rowOKb (spec :: rt) r = true) :
    ∃ ov r', r = ov :: r' ∧ fieldOKb spec ov = true ∧ rowOKb rt r' = true := by
  cases r with
  | nil => simp [rowOKb] at h
  | cons ov r' =>
    have h2 : (fieldOKb spec ov && rowOKb rt r') = true := h
    have h3 := by simpa using h2
    exact ⟨ov, r', rfl, h3.1, h3.2⟩

theorem rowOKb_nil_shape {r : Row} (h : rowOKb [] r = true) : r = [] := by
  cases r with
  | nil => rfl
  | cons ov r' => simp [rowOKb] at h

theorem inRangeRowB_cons {ov : Option FieldVal} {r' : Row}
    (h : inRangeRowB (ov :: r') = true) :
    (∀ v, ov = some v → inRangeValB v = true) ∧ inRangeRowB r' = true := by
  unfold inRangeRowB at h ⊢
  rw [List.all_cons, Bool.and_eq_true] at h
  refine ⟨?_, h.2⟩
  intro v hv
  have h1 := h.1
  rw [hv] at h1
  exact h1

theorem exMapM_cons_build {f : α → Except PolarsSerdeError β} {x : α} {xs : List α}
    {y : β} {ys : List β} (hx : f x = .ok y) (hxs : exMapM f xs = .ok ys) :
    exMapM f (x :: xs) = .ok (y :: ys) := by
  unfold exMapM
  rw [hx]
  show Except.map _ (exMapM f xs) = _
  rw [hxs]
  rfl

theorem exMapM_value_cells (f : Option Cell → Except PolarsSerdeError (Option Cell))
    (e g : FieldVal → Cell) (P : FieldVal → Prop)
    (hnull : f none = .ok none)
    (hval : ∀ v, P v → f (some (e v)) = .ok (some (g v))) :
    ∀ rows : List Row,
      (∀ r ∈ rows, ∀ v, r.getD 0 none = some v → P v) →
      exMapM f (rows.map fun r => (r.getD 0 none).map e) =
        .ok (rows.map fun r => (r.getD 0 none).map g) := by
  intro rows
  induction rows with
  | nil => intro _; rfl
  | cons r rows ih =>
    intro hr
    show exMapM f (((r.getD 0 none).map e) :: rows.map fun r => (r.getD 0 none).map e) = _
    have hhead : f ((r.getD 0 none).map e) = .ok ((r.getD 0 none).map g) := by
      cases hv : r.getD 0 none with
      | none => simpa using hnull
      | some v =>
        have hp := hr r (List.mem_cons_self r rows) v hv
        simpa using hval v hp
    exact exMapM_cons_build hhead (ih fun a ha v hv => hr a (List.mem_cons_of_mem r ha) v hv)

/-- Values reachable at the head field of conforming in-range rows satisfy the
head field's typing and range conditions. -/
theorem head_value_ok {spec : FieldSpec} {rt : List FieldSpec} {rows : List Row}
    (hok : ∀ r ∈ rows, rowOKb (spec :: rt) r = true ∧ inRangeRowB r = true) :
    ∀ r ∈ rows, ∀ v, r.getD 0 none = some v →
      typedValB spec.kind v = true ∧ inRangeValB v = true := by
  intro r hr v hv
  obtain ⟨hok1, hok2⟩ := hok r hr
  obtain ⟨ov, r', rfl, hfo, _⟩ := rowOKb_cons_shape hok1
  have hov : ov = some v := hv
  subst hov
  exact ⟨hfo, (inRangeRowB_cons hok2).1 v rfl⟩

theorem tail_rows_ok {spec : FieldSpec} {rt : List FieldSpec} {rows : List Row}
    (hok : ∀ r ∈ rows, rowOKb (spec :: rt) r = true ∧ inRangeRowB r = true) :
    ∀ r' ∈ rows.map (fun r => r.drop 1),
      rowOKb rt r' = true ∧ inRangeRowB r' = true := by
  intro r' hr'
  obtain ⟨r, hr, rfl⟩ := List.mem_map.mp hr'
  obtain ⟨hok1, hok2⟩ := hok r hr
  obtain ⟨ov, r'', rfl, _, htl⟩ := rowOKb_cons_shape hok1
  exact ⟨htl, (inRangeRowB_cons hok2).2⟩

/-- Forward reconciliation of the encoded batch of a plain-kind record type:
chrono-tagged columns become the native numeric columns, all others are
untouched. -/
theorem convert_chrono_on_encoded :
    ∀ (rt : List FieldSpec) (rows : List Row) (tags : List (String × String)),
      (∀ j < rt.length, isPlainKind (specD rt j).kind = true) →
      (∀ j < rt.length, List.lookup (specD rt j).fname tags = tagOfKind (specD rt j).kind) →
      (∀ r ∈ rows, rowOKb rt r = true ∧ inRangeRowB r = true) →
      convert_chrono_columns (to_record_batch rt rows) tags = .ok (fwdBatch rt rows) := by
  intro rt
  induction rt with
  | nil => intro rows tags _ _ _; rfl
  | cons spec rt ih =>
    intro rows tags hplain hlook hok
    have hval0 := head_value_ok hok
    have htail : convert_chrono_columns (to_record_batch rt (rows.map fun r => r.drop 1)) tags =
        .ok (fwdBatch rt (rows.map fun r => r.drop 1)) :=
      ih (rows.map fun r => r.drop 1) tags
        (fun j hj => hplain (j + 1) (by simpa using Nat.succ_lt_succ hj))
        (fun j hj => hlook (j + 1) (by simpa using Nat.succ_lt_succ hj))
        (tail_rows_ok hok)
    have hlook0 : List.lookup spec.fname tags = tagOfKind spec.kind := hlook 0 (by simp)
    show convert_chrono_columns
        (mkCol spec.fname (arrowTypeOf spec.kind)
          (rows.map fun r => (r.getD 0 none).map (encodeVal spec.kind)) ::
         to_record_batch rt (rows.map fun r => r.drop 1)) tags = _
    show exMapM (convert_one_column tags)
        (mkCol spec.fname (arrowTypeOf spec.kind)
          (rows.map fun r => (r.getD 0 none).map (encodeVal spec.kind)) ::
         to_record_batch rt (rows.map fun r => r.drop 1)) = _
    have hhead : convert_one_column tags
        (mkCol spec.fname (arrowTypeOf spec.kind)
          (rows.map fun r => (r.getD 0 none).map (encodeVal spec.kind))) =
        .ok (mkCol spec.fname (fwdType spec.kind)
          (rows.map fun r => (r.getD 0 none).map (fwdCellVal spec.kind))) := by
      cases hk : spec.kind with
      | wrapper wname inner =>
        have hp := hplain 0 (by simp)
        rw [show specD (spec :: rt) 0 = spec from rfl, hk] at hp
        simp [isPlainKind] at hp
      | i64 =>
        rw [convert_one_column_none tags _ (by rw [hk] at hlook0; exact hlook0)]
        rfl
      | txt =>
        rw [convert_one_column_none tags _ (by rw [hk] at hlook0; exact hlook0)]
        rfl
      | boolKind =>
        rw [convert_one_column_none tags _ (by rw [hk] at hlook0; exact hlook0)]
        rfl
      | date =>
        rw [convert_one_column_date tags _ (by rw [hk] at hlook0; exact hlook0)]
        rw [show arrowTypeOf FieldKind.date = ADataType.largeUtf8 from rfl]
        rw [convert_string_dates_mkCol_large]
        rw [exMapM_value_cells date_cell_to_date32 (encodeVal FieldKind.date)
          (fwdCellVal FieldKind.date)
          (fun v => typedValB FieldKind.date v = true ∧ inRangeValB v = true)
          rfl
          (fun v hv => by
            cases v with
            | vDate y m d =>
              have hvd : ValidYMD y m d := by simpa [typedValB] using hv.1
              show date_cell_to_date32 (some (Cell.s (formatDateS y m d))) = _
              rw [fwd_cell_date y m d hvd]
              rfl
            | vI n => simp [typedValB] at hv
            | vS str => simp [typedValB] at hv
            | vB bv => simp [typedValB] at hv
            | vNaive t => simp [typedValB] at hv
            | vUtc t => simp [typedValB] at hv)
          rows
          (fun r hr v hv => by have := hval0 r hr v hv; rw [hk] at this; exact this)]
        rfl
      | dtNaive =>
        rw [convert_one_column_naivedt tags _ (by rw [hk] at hlook0; exact hlook0)]
        rw [show arrowTypeOf FieldKind.dtNaive = ADataType.largeUtf8 from rfl]
        rw [convert_string_datetimes_mkCol_large]
        show Except.map _ (exMapM (datetime_cell_to_timestamp false)
          (rows.map fun r => (r.getD 0 none).map (encodeVal FieldKind.dtNaive))) = _
        rw [exMapM_value_cells (datetime_cell_to_timestamp false) (encodeVal FieldKind.dtNaive)
          (fwdCellVal FieldKind.dtNaive)
          (fun v => typedValB FieldKind.dtNaive v = true ∧ inRangeValB v = true)
          rfl
          (fun v hv => by
            cases v with
            | vNaive t =>
              have hvd : ValidDT t := by simpa [typedValB] using hv.1
              have hrg : i64Min ≤ dtToNanos t ∧ dtToNanos t ≤ i64Max := by
                simpa [inRangeValB] using hv.2
              show datetime_cell_to_timestamp false (some (Cell.s (formatNaiveS t))) = _
              rw [fwd_cell_naive t hvd hrg]
              rfl
            | vI n => simp [typedValB] at hv
            | vS str => simp [typedValB] at hv
            | vB bv => simp [typedValB] at hv
            | vDate y m d => simp [typedValB] at hv
            | vUtc t => simp [typedValB] at hv)
          rows
          (fun r hr v hv => by have := hval0 r hr v hv; rw [hk] at this; exact this)]
        rfl
      | dtUtc =>
        rw [convert_one_column_utcdt tags _ (by rw [hk] at hlook0; exact hlook0)]
        rw [show arrowTypeOf FieldKind.dtUtc = ADataType.largeUtf8 from rfl]
        rw [convert_string_datetimes_mkCol_large]
        show Except.map _ (exMapM (datetime_cell_to_timestamp true)
          (rows.map fun r => (r.getD 0 none).map (encodeVal FieldKind.dtUtc))) = _
        rw [exMapM_value_cells (datetime_cell_to_timestamp true) (encodeVal FieldKind.dtUtc)
          (fwdCellVal FieldKind.dtUtc)
          (fun v => typedValB FieldKind.dtUtc v = true ∧ inRangeValB v = true)
          rfl
          (fun v hv => by
            cases v with
            | vUtc t =>
              have hvd : ValidDT t := by simpa [typedValB] using hv.1
              have hrg : i64Min ≤ dtToNanos t ∧ dtToNanos t ≤ i64Max := by
                simpa [inRangeValB] using hv.2
              show datetime_cell_to_timestamp true (some (Cell.s (serUtcS t))) = _
              rw [fwd_cell_utc t hvd hrg]
              rfl
            | vI n => simp [typedValB] at hv
            | vS str => simp [typedValB] at hv
            | vB bv => simp [typedValB] at hv
            | vDate y m d => simp [typedValB] at hv
            | vNaive t => simp [typedValB] at hv)
          rows
          (fun r hr v hv => by have := hval0 r hr v hv; rw [hk] at this; exact this)]
        rfl
    show exMapM (convert_one_column tags) (_ :: _) = .ok
      (mkCol spec.fname (fwdType spec.kind)
        (rows.map fun r => (r.getD 0 none).map (fwdCellVal spec.kind)) ::
       fwdBatch rt (rows.map fun r => r.drop 1))
    exact exMapM_cons_build hhead htail

theorem arrowTypeOf_ne_dict : ∀ (k : FieldKind) (v : ADataType),
    arrowTypeOf k ≠ ADataType.dictionary v := by
  intro k
  induction k with
  | i64 => intro v h; simp [arrowTypeOf] at h
  | txt => intro v h; simp [arrowTypeOf] at h
  | boolKind => intro v h; simp [arrowTypeOf] at h
  | date => intro v h; simp [arrowTypeOf] at h
  | dtNaive => intro v h; simp [arrowTypeOf] at h
  | dtUtc => intro v h; simp [arrowTypeOf] at h
  | wrapper wname inner ih =>
    intro v h
    exact ih v (by simpa [arrowTypeOf] using h)

theorem fwdType_ne_dict : ∀ (k : FieldKind) (v : ADataType),
    fwdType k ≠ ADataType.dictionary v := by
  intro k v
  cases k with
  | date => simp [fwdType]
  | dtNaive => simp [fwdType]
  | dtUtc => simp [fwdType]
  | i64 => exact arrowTypeOf_ne_dict _ v
  | txt => exact arrowTypeOf_ne_dict _ v
  | boolKind => exact arrowTypeOf_ne_dict _ v
  | wrapper wname inner => exact arrowTypeOf_ne_dict _ v

/-- Dictionary normalization does not touch a batch without dictionary
columns. -/
theorem convert_dict_nodict (b : Batch)
    (h : ∀ c ∈ b, ∀ v, c.dtype ≠ ADataType.dictionary v) :
    convert_dictionary_to_strings b = .ok b := by
  have hmap : exMapM undict_one_column b = .ok (b.map id) := by
    apply exMapM_ok
    intro c hc
    rw [undict_one_column_eq c]
    rw [if_neg (h c hc ADataType.utf8)]
    rfl
  unfold convert_dictionary_to_strings
  rw [hmap, List.map_id]

theorem fwdBatch_dtype_mem :
    ∀ (rt : List FieldSpec) (rows : List Row) (c : Column), c ∈ fwdBatch rt rows →
      ∃ spec ∈ rt, c.dtype = fwdType spec.kind := by
  intro rt
  induction rt with
  | nil => intro rows c hc; simp [fwdBatch] at hc
  | cons spec rt ih =>
    intro rows c hc
    unfold fwdBatch at hc
    rcases List.mem_cons.mp hc with rfl | hc
    · exact ⟨spec, List.mem_cons_self spec rt, rfl⟩
    · obtain ⟨spec', hs, he⟩ := ih (rows.map fun r => r.drop 1) c hc
      exact ⟨spec', List.mem_cons_of_mem spec hs, he⟩

theorem convert_dict_on_fwdBatch (rt : List FieldSpec) (rows : List Row) :
    convert_dictionary_to_strings (fwdBatch rt rows) = .ok (fwdBatch rt rows) := by
  apply convert_dict_nodict
  intro c hc v
  obtain ⟨spec, _, he⟩ := fwdBatch_dtype_mem rt rows c hc
  rw [he]
  exact fwdType_ne_dict spec.kind v

theorem convert_date32_mkCol (nm : String) (cs : List (Option Cell)) :
    convert_date32_to_string (mkCol nm ADataType.date32 cs) =
      exMapM date32_cell_to_string cs := by
  unfold convert_date32_to_string
  split
  next => rfl
  next h => exact absurd rfl h

theorem convert_timestamp_mkCol (nm : String) (cs : List (Option Cell))
    (tz0 tz : Option String) :
    convert_timestamp_to_string (mkCol nm (ADataType.timestamp ATimeUnit.nanosecond tz0) cs)
      tz = exMapM (timestamp_cell_to_string tz) cs := rfl

theorem rev_cell_date32 (y m d : Nat) (h : ValidYMD y m d) :
    date32_cell_to_string (some (Cell.i (dateToEpochDays y m d))) =
      .ok (some (Cell.s (formatDateS y m d))) := by
  show Except.ok (some (Cell.s (formatDateS (epochDaysToDate (dateToEpochDays y m d)).1
    (epochDaysToDate (dateToEpochDays y m d)).2.1
    (epochDaysToDate (dateToEpochDays y m d)).2.2))) = _
  rw [rev_cell_date y m d h]

theorem rev_cell_ts_naive (t : DT) (h : ValidDT t) :
    timestamp_cell_to_string none (some (Cell.i (dtToNanos t))) =
      .ok (some (Cell.s (formatNaiveS t))) := by
  show (if (none : Option String).isSome = true then
      Except.ok (some (Cell.s (toRfc3339S (nanosToDt (dtToNanos t)))))
    else Except.ok (some (Cell.s (formatNaiveS (nanosToDt (dtToNanos t)))))) = _
  rw [nanosToDt_dtToNanos t h]
  rfl

theorem rev_cell_ts_utc (t : DT) (h : ValidDT t) :
    timestamp_cell_to_string (some "UTC") (some (Cell.i (dtToNanos t))) =
      .ok (some (Cell.s (toRfc3339S t))) := by
  show (if (some "UTC" : Option String).isSome = true then
      Except.ok (some (Cell.s (toRfc3339S (nanosToDt (dtToNanos t)))))
    else Except.ok (some (Cell.s (formatNaiveS (nanosToDt (dtToNanos t)))))) = _
  rw [nanosToDt_dtToNanos t h]
  rfl

/-- Reverse reconciliation of the forward batch of a plain-kind record type
recovers the textual batch the codec deserializes. -/
theorem convert_from_chrono_on_fwdBatch :
    ∀ (rt : List FieldSpec) (rows : List Row),
      (∀ j < rt.length, isPlainKind (specD rt j).kind = true) →
      (∀ r ∈ rows, rowOKb rt r = true ∧ inRangeRowB r = true) →
      convert_from_chrono_columns (fwdBatch rt rows) = .ok (revBatch rt rows) := by
  intro rt
  induction rt with
  | nil => intro rows _ _; rfl
  | cons spec rt ih =>
    intro rows hplain hok
    have hval0 := head_value_ok hok
    have htail : convert_from_chrono_columns (fwdBatch rt (rows.map fun r => r.drop 1)) =
        .ok (revBatch rt (rows.map fun r => r.drop 1)) :=
      ih (rows.map fun r => r.drop 1)
        (fun j hj => hplain (j + 1) (by simpa using Nat.succ_lt_succ hj))
        (tail_rows_ok hok)
    show exMapM unconvert_one_column
        (mkCol spec.fname (fwdType spec.kind)
          (rows.map fun r => (r.getD 0 none).map (fwdCellVal spec.kind)) ::
         fwdBatch rt (rows.map fun r => r.drop 1)) = _
    have hhead : unconvert_one_column
        (mkCol spec.fname (fwdType spec.kind)
          (rows.map fun r => (r.getD 0 none).map (fwdCellVal spec.kind))) =
        .ok (mkCol spec.fname (revType spec.kind)
          (rows.map fun r => (r.getD 0 none).map (revCellVal spec.kind))) := by
      cases hk : spec.kind with
      | wrapper wname inner =>
        have hp := hplain 0 (by simp)
        rw [show specD (spec :: rt) 0 = spec from rfl, hk] at hp
        simp [isPlainKind] at hp
      | i64 =>
        rw [unconvert_one_column_pass _ (by rfl)]
        rfl
      | txt =>
        rw [unconvert_one_column_pass _ (by rfl)]
        rfl
      | boolKind =>
        rw [unconvert_one_column_pass _ (by rfl)]
        rfl
      | date =>
        rw [show fwdType FieldKind.date = ADataType.date32 from rfl]
        rw [unconvert_one_column_date32 _ rfl]
        rw [convert_date32_mkCol]
        rw [exMapM_value_cells date32_cell_to_string (fwdCellVal FieldKind.date)
          (revCellVal FieldKind.date)
          (fun v => typedValB FieldKind.date v = true ∧ inRangeValB v = true)
          rfl
          (fun v hv => by
            cases v with
            | vDate y m d =>
              have hvd : ValidYMD y m d := by simpa [typedValB] using hv.1
              show date32_cell_to_string (some (Cell.i (dateToEpochDays y m d))) = _
              rw [rev_cell_date32 y m d hvd]
              rfl
            | vI n => simp [typedValB] at hv
            | vS str => simp [typedValB] at hv
            | vB bv => simp [typedValB] at hv
            | vNaive t => simp [typedValB] at hv
            | vUtc t => simp [typedValB] at hv)
          rows
          (fun r hr v hv => by have := hval0 r hr v hv; rw [hk] at this; exact this)]
        rfl
      | dtNaive =>
        rw [show fwdType FieldKind.dtNaive =
          ADataType.timestamp ATimeUnit.nanosecond none from rfl]
        rw [unconvert_one_column_timestamp _ ATimeUnit.nanosecond none rfl]
        rw [convert_timestamp_mkCol]
        rw [exMapM_value_cells (timestamp_cell_to_string none) (fwdCellVal FieldKind.dtNaive)
          (revCellVal FieldKind.dtNaive)
          (fun v => typedValB FieldKind.dtNaive v = true ∧ inRangeValB v = true)
          rfl
          (fun v hv => by
            cases v with
            | vNaive t =>
              have hvd : ValidDT t := by simpa [typedValB] using hv.1
              show timestamp_cell_to_string none (some (Cell.i (dtToNanos t))) = _
              rw [rev_cell_ts_naive t hvd]
              rfl
            | vI n => simp [typedValB] at hv
            | vS str => simp [typedValB] at hv
            | vB bv => simp [typedValB] at hv
            | vDate y m d => simp [typedValB] at hv
            | vUtc t => simp [typedValB] at hv)
          rows
          (fun r hr v hv => by have := hval0 r hr v hv; rw [hk] at this; exact this)]
        rfl
      | dtUtc =>
        rw [show fwdType FieldKind.dtUtc =
          ADataType.timestamp ATimeUnit.nanosecond (some "UTC") from rfl]
        rw [unconvert_one_column_timestamp _ ATimeUnit.nanosecond (some "UTC") rfl]
        rw [convert_timestamp_mkCol]
        rw [exMapM_value_cells (timestamp_cell_to_string (some "UTC"))
          (fwdCellVal FieldKind.dtUtc) (revCellVal FieldKind.dtUtc)
          (fun v => typedValB FieldKind.dtUtc v = true ∧ inRangeValB v = true)
          rfl
          (fun v hv => by
            cases v with
            | vUtc t =>
              have hvd : ValidDT t := by simpa [typedValB] using hv.1
              show timestamp_cell_to_string (some "UTC") (some (Cell.i (dtToNanos t))) = _
              rw [rev_cell_ts_utc t hvd]
              rfl
            | vI n => simp [typedValB] at hv
            | vS str => simp [typedValB] at hv
            | vB bv => simp [typedValB] at hv
            | vDate y m d => simp [typedValB] at hv
            | vNaive t => simp [typedValB] at hv)
          rows
          (fun r hr v hv => by have := hval0 r hr v hv; rw [hk] at this; exact this)]
        rfl
    show exMapM unconvert_one_column (_ :: _) = .ok
      (mkCol spec.fname (revType spec.kind)
        (rows.map fun r => (r.getD 0 none).map (revCellVal spec.kind)) ::
       revBatch rt (rows.map fun r => r.drop 1))
    exact exMapM_cons_build hhead htail

/-! ### Decoding the reverse batch -/

theorem decodeVal_revCellVal (k : FieldKind) (hk : isPlainKind k = true) (v : FieldVal)
    (hv : typedValB k v = true) : decodeVal k (revCellVal k v) = some v := by
  cases k with
  | wrapper wname inner => simp [isPlainKind] at hk
  | i64 =>
    cases v with
    | vI n => rfl
    | vS s => simp [typedValB] at hv
    | vB bv => simp [typedValB] at hv
    | vDate y m d => simp [typedValB] at hv
    | vNaive t => simp [typedValB] at hv
    | vUtc t => simp [typedValB] at hv
  | txt =>
    cases v with
    | vS s => rfl
    | vI n => simp [typedValB] at hv
    | vB bv => simp [typedValB] at hv
    | vDate y m d => simp [typedValB] at hv
    | vNaive t => simp [typedValB] at hv
    | vUtc t => simp [typedValB] at hv
  | boolKind =>
    cases v with
    | vB bv => rfl
    | vI n => simp [typedValB] at hv
    | vS s => simp [typedValB] at hv
    | vDate y m d => simp [typedValB] at hv
    | vNaive t => simp [typedValB] at hv
    | vUtc t => simp [typedValB] at hv
  | date =>
    cases v with
    | vDate y m d =>
      have hvd : ValidYMD y m d := by simpa [typedValB] using hv
      show decodeVal FieldKind.date (Cell.s (formatDateS y m d)) = _
      exact dec_cell_date y m d hvd
    | vI n => simp [typedValB] at hv
    | vS s => simp [typedValB] at hv
    | vB bv => simp [typedValB] at hv
    | vNaive t => simp [typedValB] at hv
    | vUtc t => simp [typedValB] at hv
  | dtNaive =>
    cases v with
    | vNaive t =>
      have hvd : ValidDT t := by simpa [typedValB] using hv
      show decodeVal FieldKind.dtNaive (Cell.s (formatNaiveS t)) = _
      exact dec_cell_naive t hvd
    | vI n => simp [typedValB] at hv
    | vS s => simp [typedValB] at hv
    | vB bv => simp [typedValB] at hv
    | vDate y m d => simp [typedValB] at hv
    | vUtc t => simp [typedValB] at hv
  | dtUtc =>
    cases v with
    | vUtc t =>
      have hvd : ValidDT t := by simpa [typedValB] using hv
      show decodeVal FieldKind.dtUtc (Cell.s (toRfc3339S t)) = _
      exact dec_cell_utc t hvd
    | vI n => simp [typedValB] at hv
    | vS s => simp [typedValB] at hv
    | vB bv => simp [typedValB] at hv
    | vDate y m d => simp [typedValB] at hv
    | vNaive t => simp [typedValB] at hv

theorem revBatch_names :
    ∀ (rt : List FieldSpec) (rows : List Row),
      (revBatch rt rows).map Column.name = rt.map FieldSpec.fname := by
  intro rt
  induction rt with
  | nil => intro rows; rfl
  | cons spec rt ih =>
    intro rows
    show spec.fname :: (revBatch rt (rows.map fun r => r.drop 1)).map Column.name = _
    rw [ih]
    rfl

theorem optMapM_cons_build {f : α → Option β} {x : α} {xs : List α}
    {y : β} {ys : List β} (hx : f x = some y) (hxs : optMapM f xs = some ys) :
    optMapM f (x :: xs) = some (y :: ys) := by
  unfold optMapM
  rw [hx]
  show Option.map _ (optMapM f xs) = _
  rw [hxs]
  rfl

theorem decodeRowAt_revBatch :
    ∀ (rt : List FieldSpec) (rows : List Row),
      (∀ j < rt.length, isPlainKind (specD rt j).kind = true) →
      (∀ r ∈ rows, rowOKb rt r = true ∧ inRangeRowB r = true) →
      ∀ i, i < rows.length →
        decodeRowAt (rt.zip (revBatch rt rows)) i = some (rows.getD i []) := by
  intro rt
  induction rt with
  | nil =>
    intro rows _ hok i hi
    have hr : rows.getD i [] = [] :=
      rowOKb_nil_shape (hok (rows.getD i []) (getD_mem_of_lt [] rows i hi)).1
    rw [hr]
    rfl
  | cons spec rt ih =>
    intro rows hplain hok i hi
    set r := rows.getD i [] with hrdef
    have hrmem : r ∈ rows := getD_mem_of_lt [] rows i hi
    obtain ⟨hok1, hok2⟩ := hok r hrmem
    obtain ⟨ov, r', hre, hfo, htl⟩ := rowOKb_cons_shape hok1
    show optMapM (fun p => decodeField p.1 (p.2.cells.getD i none))
      ((spec, mkCol spec.fname (revType spec.kind)
        (rows.map fun r => (r.getD 0 none).map (revCellVal spec.kind))) ::
       rt.zip (revBatch rt (rows.map fun r => r.drop 1))) = _
    have hcell : ((rows.map fun r => (r.getD 0 none).map (revCellVal spec.kind)).getD i none) =
        (r.getD 0 none).map (revCellVal spec.kind) := by
      rw [getD_map_lt _ [] none rows i hi]
    have hhead : decodeField spec
        ((mkCol spec.fname (revType spec.kind)
          (rows.map fun r => (r.getD 0 none).map (revCellVal spec.kind))).cells.getD i none) =
        some ov := by
      rw [show (mkCol spec.fname (revType spec.kind)
        (rows.map fun r => (r.getD 0 none).map (revCellVal spec.kind))).cells =
        rows.map fun r => (r.getD 0 none).map (revCellVal spec.kind) from rfl]
      rw [hcell]
      rw [hre]
      cases ov with
      | none =>
        show decodeField spec none = some none
        unfold decodeField
        have hnul : spec.nullable = true := hfo
        rw [if_pos hnul]
      | some v =>
        have hp := hplain 0 (by simp)
        rw [show specD (spec :: rt) 0 = spec from rfl] at hp
        show Option.map some (decodeVal spec.kind (revCellVal spec.kind v)) = some (some v)
        rw [decodeVal_revCellVal spec.kind hp v hfo]
        rfl
    have htail : optMapM (fun p : FieldSpec × Column =>
        decodeField p.1 (p.2.cells.getD i none))
        (rt.zip (revBatch rt (rows.map fun r => r.drop 1))) = some r' := by
      show decodeRowAt (rt.zip (revBatch rt (rows.map fun r => r.drop 1))) i = some r'
      have hi' : i < (rows.map fun r => r.drop 1).length := by simpa using hi
      have := ih (rows.map fun r => r.drop 1)
        (fun j hj => hplain (j + 1) (by simpa using Nat.succ_lt_succ hj))
        (tail_rows_ok hok) i hi'
      rw [this]
      rw [getD_map_lt _ [] [] rows i hi]
      rw [← hrdef, hre]
      rfl
    have hfull := @optMapM_cons_build (FieldSpec × Column) (Option FieldVal)
      (fun p : FieldSpec × Column => decodeField p.1 (p.2.cells.getD i none))
      (spec, mkCol spec.fname (revType spec.kind)
        (rows.map fun r => (r.getD 0 none).map (revCellVal spec.kind)))
      (rt.zip (revBatch rt (rows.map fun r => r.drop 1)))
      ov r' hhead htail
    rw [hfull]
    rw [hre]

theorem from_record_batch_revBatch (rt : List FieldSpec) (rows : List Row)
    (hplain : ∀ j < rt.length, isPlainKind (specD rt j).kind = true)
    (hok : ∀ r ∈ rows, rowOKb rt r = true ∧ inRangeRowB r = true)
    (hrt : rt ≠ []) :
    from_record_batch rt (revBatch rt rows) = .ok rows := by
  unfold from_record_batch
  rw [if_pos (revBatch_names rt rows)]
  have hheight : heightOf (revBatch rt rows) = rows.length := by
    cases rt with
    | nil => exact absurd rfl hrt
    | cons spec rt' =>
      show (rows.map fun r => (r.getD 0 none).map (revCellVal spec.kind)).length = rows.length
      simp
  rw [hheight]
  have hmap : optMapM (decodeRowAt (rt.zip (revBatch rt rows))) (List.range rows.length) =
      some rows := by
    have h1 := optMapM_some (decodeRowAt (rt.zip (revBatch rt rows)))
      (fun i => rows.getD i []) (List.range rows.length)
      (fun i hi => decodeRowAt_revBatch rt rows hplain hok i (List.mem_range.mp hi))
    rw [h1, range_map_getD]
  rw [hmap]

/-- End-to-end round trip for record types made of plain supported field
kinds, on records whose timestamp instants are representable as i64
nanoseconds. -/
theorem roundtrip_core (rt : List FieldSpec) (rows : List Row)
    (hne : rows ≠ []) (hrt : rt ≠ [])
    (hnd : (rt.map FieldSpec.fname).Nodup)
    (hplain : ∀ spec ∈ rt, isPlainKind spec.kind = true)
    (hok : ∀ r ∈ rows, rowOKb rt r = true ∧ inRangeRowB r = true) :
    to_dataframe rt rows = .ok (fwdBatch rt rows) ∧
      from_dataframe rt (fwdBatch rt rows) = .ok rows := by
  have hplainIdx : ∀ j < rt.length, isPlainKind (specD rt j).kind = true := by
    intro j hj
    exact hplain _ (getD_mem_of_lt _ rt j hj)
  constructor
  · unfold to_dataframe
    have hemp : rows.isEmpty = false := by
      cases rows with
      | nil => exact absurd rfl hne
      | cons r rs => rfl
    rw [if_neg (by rw [hemp]; simp)]
    rw [convert_chrono_on_encoded rt rows (detect_chrono_types rt (rows.getD 0 []))
      hplainIdx
      (fun j hj => detect_lookup_plain rt (rows.getD 0 []) hnd j hj (hplainIdx j hj))
      hok]
    show convert_dictionary_to_strings (fwdBatch rt rows) = .ok (fwdBatch rt rows)
    exact convert_dict_on_fwdBatch rt rows
  · unfold from_dataframe
    rw [convert_from_chrono_on_fwdBatch rt rows hplainIdx hok]
    show from_record_batch rt (revBatch rt rows) = .ok rows
    exact from_record_batch_revBatch rt rows hplainIdx hok hrt

/-! ### Inversion helpers for success analyses -/

theorem except_bind_ok {x : Except PolarsSerdeError α} {f : α → Except PolarsSerdeError β}
    {b : β} (h : x.bind f = .ok b) : ∃ a, x = .ok a ∧ f a = .ok b := by
  cases x with
  | error e => exact absurd h (by simp [Except.bind])
  | ok a => exact ⟨a, rfl, h⟩

theorem except_map_ok {x : Except PolarsSerdeError α} {g : α → β} {b : β}
    (h : x.map g = .ok b) : ∃ a, x = .ok a ∧ b = g a := by
  cases x with
  | error e => exact absurd h (by simp [Except.map])
  | ok a =>
    refine ⟨a, rfl, ?_⟩
    have : Except.map g (Except.ok a) = (.ok (g a) : Except PolarsSerdeError β) := rfl
    rw [this] at h
    cases h
    rfl

theorem convert_string_dates_on_strings (nm : String) (dt : ADataType)
    (cells : List (Option Cell)) (h : dt = ADataType.utf8 ∨ dt = ADataType.largeUtf8) :
    convert_string_dates_to_date32 (mkCol nm dt cells) = exMapM date_cell_to_date32 cells := by
  unfold convert_string_dates_to_date32
  split
  next => rfl
  next h' => exact absurd h h'

theorem convert_string_datetimes_on_strings (nm : String) (dt : ADataType)
    (cells : List (Option Cell)) (tz : Option String)
    (h : dt = ADataType.utf8 ∨ dt = ADataType.largeUtf8) :
    convert_string_datetimes_to_timestamp (mkCol nm dt cells) tz =
      exMapM (datetime_cell_to_timestamp tz.isSome) cells := by
  unfold convert_string_datetimes_to_timestamp
  split
  next => rfl
  next h' => exact absurd h h'

theorem convert_string_dates_ok_length {c : Column} {cells : List (Option Cell)}
    (h : convert_string_dates_to_date32 c = .ok cells) :
    cells.length = c.cells.length := by
  unfold convert_string_dates_to_date32 at h
  split at h
  next => exact exMapM_ok_length h
  next => exact absurd h (by simp)

theorem convert_string_datetimes_ok_length {c : Column} {tz : Option String}
    {cells : List (Option Cell)}
    (h : convert_string_datetimes_to_timestamp c tz = .ok cells) :
    cells.length = c.cells.length := by
  unfold convert_string_datetimes_to_timestamp at h
  split at h
  next => exact exMapM_ok_length h
  next => exact absurd h (by simp)

theorem convert_date32_ok_length {c : Column} {cells : List (Option Cell)}
    (h : convert_date32_to_string c = .ok cells) :
    cells.length = c.cells.length := by
  unfold convert_date32_to_string at h
  split at h
  next => exact exMapM_ok_length h
  next => exact absurd h (by simp)

theorem convert_timestamp_ok_length {c : Column} {tz : Option String}
    {cells : List (Option Cell)}
    (h : convert_timestamp_to_string c tz = .ok cells) :
    cells.length = c.cells.length := by
  unfold convert_timestamp_to_string at h
  split at h
  next => exact exMapM_ok_length h
  next => exact absurd h (by simp)

/-- Shape facts about one successful forward-reconciled column: the name and
cell count survive, and the type is unchanged or a native temporal type. -/
theorem convert_one_column_ok_shape {tags : List (String × String)} {c c' : Column}
    (h : convert_one_column tags c = .ok c') :
    c'.name = c.name ∧ c'.cells.length = c.cells.length ∧
      (c'.dtype = c.dtype ∨ c'.dtype = ADataType.date32 ∨
        c'.dtype = ADataType.timestamp ATimeUnit.nanosecond none ∨
        c'.dtype = ADataType.timestamp ATimeUnit.nanosecond (some "UTC")) := by
  cases hl : List.lookup c.name tags with
  | none =>
    rw [convert_one_column_none tags c hl] at h
    cases h
    exact ⟨rfl, rfl, Or.inl rfl⟩
  | some tag =>
    by_cases t1 : tag = "NaiveDate"
    · subst t1
      rw [convert_one_column_date tags c hl] at h
      obtain ⟨cells, hc, rfl⟩ := except_map_ok h
      exact ⟨rfl, convert_string_dates_ok_length hc, Or.inr (Or.inl rfl)⟩
    · by_cases t2 : tag = "NaiveDateTime"
      · subst t2
        rw [convert_one_column_naivedt tags c hl] at h
        obtain ⟨cells, hc, rfl⟩ := except_map_ok h
        exact ⟨rfl, convert_string_datetimes_ok_length hc, Or.inr (Or.inr (Or.inl rfl))⟩
      · by_cases t3 : tag = "DateTimeUtc"
        · subst t3
          rw [convert_one_column_utcdt tags c hl] at h
          obtain ⟨cells, hc, rfl⟩ := except_map_ok h
          exact ⟨rfl, convert_string_datetimes_ok_length hc, Or.inr (Or.inr (Or.inr rfl))⟩
        · rw [convert_one_column_other tags c tag hl t1 t2 t3] at h
          cases h
          exact ⟨rfl, rfl, Or.inl rfl⟩

/-- Shape facts about one successful reverse-reconciled column. -/
theorem unconvert_one_column_ok_shape {c c' : Column}
    (h : unconvert_one_column c = .ok c') :
    c'.name = c.name ∧ c'.cells.length = c.cells.length := by
  obtain ⟨nm, dt, cs⟩ := c
  cases dt with
  | date32 =>
    rw [unconvert_one_column_date32 _ rfl] at h
    obtain ⟨cells, hc, rfl⟩ := except_map_ok h
    exact ⟨rfl, convert_date32_ok_length hc⟩
  | timestamp u tz =>
    rw [unconvert_one_column_timestamp _ u tz rfl] at h
    obtain ⟨cells, hc, rfl⟩ := except_map_ok h
    exact ⟨rfl, convert_timestamp_ok_length hc⟩
  | date64 =>
    rw [unconvert_one_column_date64 _ rfl] at h
    have h2 := h
    cases h2
    refine ⟨rfl, ?_⟩
    show (castDate64CellsToUtf8 cs).length = cs.length
    unfold castDate64CellsToUtf8
    simp
  | int64 =>
    have h2 : (Except.ok (mkCol nm ADataType.int64 cs) : Except PolarsSerdeError Column) =
      .ok c' := h
    cases h2
    exact ⟨rfl, rfl⟩
  | float64 =>
    have h2 : (Except.ok (mkCol nm ADataType.float64 cs) : Except PolarsSerdeError Column) =
      .ok c' := h
    cases h2
    exact ⟨rfl, rfl⟩
  | boolean =>
    have h2 : (Except.ok (mkCol nm ADataType.boolean cs) : Except PolarsSerdeError Column) =
      .ok c' := h
    cases h2
    exact ⟨rfl, rfl⟩
  | utf8 =>
    have h2 : (Except.ok (mkCol nm ADataType.utf8 cs) : Except PolarsSerdeError Column) =
      .ok c' := h
    cases h2
    exact ⟨rfl, rfl⟩
  | largeUtf8 =>
    have h2 : (Except.ok (mkCol nm ADataType.largeUtf8 cs) : Except PolarsSerdeError Column) =
      .ok c' := h
    cases h2
    exact ⟨rfl, rfl⟩
  | dictionary v =>
    have h2 : (Except.ok (mkCol nm (ADataType.dictionary v) cs) :
      Except PolarsSerdeError Column) = .ok c' := h
    cases h2
    exact ⟨rfl, rfl⟩

theorem date_cell_some (s : String) (ymd : Nat × Nat × Nat)
    (h : naiveDateParse s = some ymd) :
    date_cell_to_date32 (some (Cell.s s)) =
      .ok (some (Cell.i (dateToEpochDays ymd.1 ymd.2.1 ymd.2.2))) := by
  show (match naiveDateParse s with
    | some ymd => Except.ok (some (Cell.i (dateToEpochDays ymd.1 ymd.2.1 ymd.2.2)))
    | none => Except.error (PolarsSerdeError.conversionError
        ("Failed to parse date string: " ++ s))) = _
  rw [h]

theorem date_cell_none (s : String) (h : naiveDateParse s = none) :
    date_cell_to_date32 (some (Cell.s s)) =
      .error (.conversionError ("Failed to parse date string: " ++ s)) := by
  show (match naiveDateParse s with
    | some ymd => Except.ok (some (Cell.i (dateToEpochDays ymd.1 ymd.2.1 ymd.2.2)))
    | none => Except.error (PolarsSerdeError.conversionError
        ("Failed to parse date string: " ++ s))) = _
  rw [h]

theorem parse_dt_naive_some (s : String) (t : DT) (h : naiveDateTimeParse s = some t) :
    parse_datetime_string s false = .ok ((timestampNanosOpt (dtToNanos t)).getD 0) := by
  unfold parse_datetime_string
  rw [if_neg (show ¬(false = true) from by decide)]
  rw [h]

theorem parse_dt_naive_none (s : String) (h : naiveDateTimeParse s = none) :
    parse_datetime_string s false =
      .error (.conversionError ("Failed to parse datetime string: " ++ s)) := by
  unfold parse_datetime_string
  rw [if_neg (show ¬(false = true) from by decide)]
  rw [h]

theorem parse_dt_utc_some (s : String) (p : DT × Int) (h : rfc3339Parse s = some p) :
    parse_datetime_string s true =
      .ok ((timestampNanosOpt (dtToNanos p.1 - p.2 * 1000000000)).getD 0) := by
  unfold parse_datetime_string
  rw [if_pos (show true = true from rfl)]
  rw [h]

theorem parse_dt_utc_none (s : String) (h : rfc3339Parse s = none) :
    parse_datetime_string s true =
      .error (.conversionError ("Failed to parse UTC datetime string: " ++ s)) := by
  unfold parse_datetime_string
  rw [if_pos (show true = true from rfl)]
  rw [h]

theorem datetime_cell_ok (u : Bool) (s : String) (n : Int)
    (h : parse_datetime_string s u = .ok n) :
    datetime_cell_to_timestamp u (some (Cell.s s)) = .ok (some (Cell.i n)) := by
  show (parse_datetime_string s u).map (fun n => some (Cell.i n)) = _
  rw [h]
  rfl

theorem datetime_cell_err (u : Bool) (s : String) (e : PolarsSerdeError)
    (h : parse_datetime_string s u = .error e) :
    datetime_cell_to_timestamp u (some (Cell.s s)) = .error e := by
  show (parse_datetime_string s u).map (fun n => some (Cell.i n)) = _
  rw [h]
  rfl

/-! ### A generic contract for string-column cell maps -/

/-- Success half: on an all-string/null column whose every string satisfies
the per-cell success predicate, the fail-fast map succeeds, keeps the length,
and sends exactly the nulls to nulls. -/
theorem exMapM_string_ok (f : Option Cell → Except PolarsSerdeError (Option Cell))
    (Q : String → Prop)
    (hnull : f none = .ok none)
    (hok : ∀ s, Q s → ∃ c, f (some (Cell.s s)) = .ok (some c)) :
    ∀ cells : List (Option Cell),
      (∀ oc ∈ cells, oc = none ∨ ∃ s, oc = some (Cell.s s)) →
      (∀ s, some (Cell.s s) ∈ cells → Q s) →
      ∃ out, exMapM f cells = .ok out ∧ out.length = cells.length ∧
        ∀ j, (cells.getD j none = none ↔ out.getD j none = none) := by
  intro cells
  induction cells with
  | nil =>
    intro _ _
    exact ⟨[], rfl, rfl, fun j => Iff.rfl⟩
  | cons x xs ih =>
    intro hwt hq
    obtain ⟨out', h1, h2, h3⟩ := ih (fun a ha => hwt a (List.mem_cons_of_mem x ha))
      (fun s hs => hq s (List.mem_cons_of_mem x hs))
    rcases hwt x (List.mem_cons_self x xs) with rfl | ⟨s, rfl⟩
    · refine ⟨none :: out', ?_, by simp [h2], ?_⟩
      · show (f none).bind _ = _
        rw [hnull]
        show (exMapM f xs).map _ = _
        rw [h1]
        rfl
      · intro j
        cases j with
        | zero => exact Iff.rfl
        | succ n => exact h3 n
    · obtain ⟨c, hc⟩ := hok s (hq s (List.mem_cons_self _ xs))
      refine ⟨some c :: out', ?_, by simp [h2], ?_⟩
      · show (f (some (Cell.s s))).bind _ = _
        rw [hc]
        show (exMapM f xs).map _ = _
        rw [h1]
        rfl
      · intro j
        cases j with
        | zero => simp
        | succ n => exact h3 n

/-- Failure half: if some string in an all-string/null column violates the
per-cell predicate, the fail-fast map returns the per-cell error, whose
message carries the offending text. -/
theorem exMapM_string_err (f : Option Cell → Except PolarsSerdeError (Option Cell))
    (Q : String → Prop) (pre : String)
    (hnull : f none = .ok none)
    (hok : ∀ s, Q s → ∃ c, f (some (Cell.s s)) = .ok (some c))
    (herr : ∀ s, ¬ Q s → f (some (Cell.s s)) = .error (.conversionError (pre ++ s))) :
    ∀ cells : List (Option Cell),
      (∀ oc ∈ cells, oc = none ∨ ∃ s, oc = some (Cell.s s)) →
      (∃ s, some (Cell.s s) ∈ cells ∧ ¬ Q s) →
      ∃ s2, some (Cell.s s2) ∈ cells ∧ ¬ Q s2 ∧
        exMapM f cells = .error (.conversionError (pre ++ s2)) := by
  intro cells hwt hbad
  cases hex : exMapM f cells with
  | ok out =>
    obtain ⟨s0, hs0, hnq⟩ := hbad
    obtain ⟨y, hy⟩ := exMapM_ok_mem hex (some (Cell.s s0)) hs0
    rw [herr s0 hnq] at hy
    cases hy
  | error e =>
    obtain ⟨x, hx, hfx⟩ := exMapM_error_elem hex
    rcases hwt x hx with rfl | ⟨s, rfl⟩
    · rw [hnull] at hfx
      cases hfx
    · by_cases hq : Q s
      · obtain ⟨c, hc⟩ := hok s hq
        rw [hc] at hfx
        cases hfx
      · rw [herr s hq] at hfx
        cases hfx
        exact ⟨s, hx, hq, rfl⟩

/-! ### Success-shape inversions for the public API -/

theorem heightOf_colD (b : Batch) (h : b ≠ []) :
    heightOf b = (colD b 0).cells.length := by
  cases b with
  | nil => exact absurd rfl h
  | cons c t => rfl

theorem to_dataframe_ok_inv {rt : List FieldSpec} {rows : List Row} {df : Batch}
    (h : to_dataframe rt rows = .ok df) :
    rows ≠ [] ∧ ∃ converted,
      convert_chrono_columns (to_record_batch rt rows)
        (detect_chrono_types rt (rows.getD 0 [])) = .ok converted ∧
      convert_dictionary_to_strings converted = .ok df := by
  unfold to_dataframe at h
  by_cases he : rows.isEmpty
  · rw [if_pos he] at h
    cases h
  · rw [if_neg he] at h
    refine ⟨fun hnil => he (by rw [hnil]; rfl), ?_⟩
    exact except_bind_ok h

theorem from_record_batch_ok_inv {rt : List FieldSpec} {b : Batch} {out : List Row}
    (h : from_record_batch rt b = .ok out) :
    b.map Column.name = rt.map FieldSpec.fname ∧
      optMapM (decodeRowAt (rt.zip b)) (List.range (heightOf b)) = some out := by
  unfold from_record_batch at h
  by_cases hn : b.map Column.name = rt.map FieldSpec.fname
  · rw [if_pos hn] at h
    refine ⟨hn, ?_⟩
    cases ho : optMapM (decodeRowAt (rt.zip b)) (List.range (heightOf b)) with
    | none =>
      rw [ho] at h
      cases h
    | some rows =>
      rw [ho] at h
      have h2 : (Except.ok rows : Except PolarsSerdeError (List Row)) = .ok out := h
      cases h2
      rfl
  · rw [if_neg hn] at h
    cases h

theorem from_dataframe_ok_inv {rt : List FieldSpec} {df : Batch} {out : List Row}
    (h : from_dataframe rt df = .ok out) :
    ∃ converted, convert_from_chrono_columns df = .ok converted ∧
      from_record_batch rt converted = .ok out := by
  unfold from_dataframe at h
  exact except_bind_ok h

/-! ### The claims -/

set_option maxRecDepth 8000 in
/-- C1, counterexample: a record holding the UTC instant 2500-01-01T00:00:00Z,
a supported shape, does not survive the round trip: to_dataframe followed by
from_dataframe returns the Unix epoch instant instead, because the parsed
instant overflows i64 nanoseconds and parse_datetime_string silently maps it
to 0. -/
theorem C1_roundtrip_counterexample :
    (to_dataframe [⟨"t", FieldKind.dtUtc, false⟩]
        [[some (FieldVal.vUtc ⟨2500, 1, 1, 0, 0, 0, 0⟩)]]).bind
      (from_dataframe [⟨"t", FieldKind.dtUtc, false⟩]) =
      .ok [[some (FieldVal.vUtc ⟨1970, 1, 1, 0, 0, 0, 0⟩)]] ∧
    [[some (FieldVal.vUtc ⟨1970, 1, 1, 0, 0, 0, 0⟩)]] ≠
      [[some (FieldVal.vUtc ⟨2500, 1, 1, 0, 0, 0, 0⟩)]] :=
  ⟨rfl, by decide⟩

/-- C2: to_dataframe on an empty record sequence returns EmptyInput for every
record type, before detection or encoding runs. -/
theorem C2_empty_input (rt : List FieldSpec) :
    to_dataframe rt [] = .error PolarsSerdeError.emptyInput := rfl

/-- C5: a signal-tagged column already holding a native numeric day-count
(Date32) or nanosecond-count (Timestamp) array is not cast in place: the
forward reconciler's string downcast fails and the whole conversion errors
out, for the date tag and the datetime tag alike. -/
theorem C5_numeric_signal_column_rejected :
    convert_chrono_columns [mkCol "d" ADataType.date32 [some (Cell.i 1000)]]
        [("d", "NaiveDate")] =
      .error (.conversionError
        "Expected string array (Utf8 or LargeUtf8) for date conversion") ∧
    convert_chrono_columns
        [mkCol "t" (ADataType.timestamp ATimeUnit.nanosecond none) [some (Cell.i 1000)]]
        [("t", "NaiveDateTime")] =
      .error (.conversionError
        "Expected string array (Utf8 or LargeUtf8) for datetime conversion") :=
  ⟨rfl, rfl⟩

set_option maxRecDepth 8000 in
/-- C10: the syntactically valid RFC 3339 string 2500-01-01T00:00:00Z parses,
its instant overflows i64 nanoseconds (timestamp_nanos_opt returns None), yet
parse_datetime_string returns Ok 0; the forward reconciler therefore stores
the Unix epoch for it, and the record holding that instant does not
round-trip. -/
theorem C10_out_of_range_silent_epoch :
    parse_datetime_string "2500-01-01T00:00:00Z" true = .ok 0 ∧
    rfc3339Parse "2500-01-01T00:00:00Z" = some (⟨2500, 1, 1, 0, 0, 0, 0⟩, 0) ∧
    timestampNanosOpt (dtToNanos ⟨2500, 1, 1, 0, 0, 0, 0⟩) = none ∧
    convert_string_datetimes_to_timestamp
        (mkCol "t" ADataType.largeUtf8 [some (Cell.s "2500-01-01T00:00:00Z")])
        (some "UTC") = .ok [some (Cell.i 0)] ∧
    (to_dataframe [⟨"t", FieldKind.dtUtc, false⟩]
        [[some (FieldVal.vUtc ⟨2500, 1, 1, 0, 0, 0, 0⟩)]]).bind
      (from_dataframe [⟨"t", FieldKind.dtUtc, false⟩]) ≠
      .ok [[some (FieldVal.vUtc ⟨2500, 1, 1, 0, 0, 0, 0⟩)]] := by
  refine ⟨rfl, rfl, rfl, rfl, ?_⟩
  intro h
  have h2 : (Except.ok [[some (FieldVal.vUtc ⟨1970, 1, 1, 0, 0, 0, 0⟩)]] :
      Except PolarsSerdeError (List Row)) =
      .ok [[some (FieldVal.vUtc ⟨2500, 1, 1, 0, 0, 0, 0⟩)]] := h
  injection h2 with h3
  exact absurd h3 (by decide)

theorem exMapM_col_getD {f : Column → Except PolarsSerdeError Column} {l l' : Batch}
    (h : exMapM f l = .ok l') (j : Nat) (hj : j < l.length) :
    f (colD l j) = .ok (colD l' j) :=
  exMapM_ok_getD ({ name := "", dtype := ADataType.int64, cells := [] } : Column)
    ({ name := "", dtype := ADataType.int64, cells := [] } : Column) h j hj

theorem undict_ok_eq {c c' : Column} (h : undict_one_column c = .ok c') :
    c' = if c.dtype = ADataType.dictionary ADataType.utf8 then
      mkCol c.name ADataType.utf8 c.cells else c := by
  rw [undict_one_column_eq c] at h
  injection h with h2
  exact h2.symm

theorem undict_ok_cells {c c' : Column} (h : undict_one_column c = .ok c') :
    c'.cells = c.cells := by
  rw [undict_ok_eq h]
  split <;> rfl

theorem undict_ok_name {c c' : Column} (h : undict_one_column c = .ok c') :
    c'.name = c.name := by
  rw [undict_ok_eq h]
  split <;> rfl

theorem convert_from_chrono_height {df conv2 : Batch}
    (h : convert_from_chrono_columns df = .ok conv2) :
    heightOf conv2 = heightOf df := by
  cases df with
  | nil =>
    have h2 : (Except.ok ([] : Batch) : Except PolarsSerdeError Batch) = .ok conv2 := h
    cases h2
    rfl
  | cons c t =>
    have hlen : conv2.length = (c :: t).length := exMapM_ok_length h
    have hpos : 0 < conv2.length := by
      rw [hlen]
      simp
    have hu := exMapM_col_getD h 0 (by simp : (0 : Nat) < (c :: t).length)
    have hcells := (unconvert_one_column_ok_shape hu).2
    rw [heightOf_colD conv2 (List.length_pos.mp hpos), hcells]
    rfl

/-- Record type used by the concrete witnesses: one field of each plain
supported kind, the datetime field nullable. -/
def rtW : List FieldSpec :=
  [⟨"a", FieldKind.i64, false⟩, ⟨"b", FieldKind.txt, false⟩,
   ⟨"c", FieldKind.boolKind, false⟩, ⟨"d", FieldKind.date, false⟩,
   ⟨"e", FieldKind.dtNaive, true⟩, ⟨"f", FieldKind.dtUtc, false⟩]

/-- Records used by the concrete witnesses: date-like scalar values, a leap
day, a pre-epoch instant, the greatest representable instant, and a None in
the nullable field of the second record. -/
def rowsW : List Row :=
  [[some (FieldVal.vI 20240101), some (FieldVal.vS "2024-01-01"),
    some (FieldVal.vB true), some (FieldVal.vDate 2024 2 29),
    some (FieldVal.vNaive ⟨2024, 2, 29, 12, 30, 5, 123456789⟩),
    some (FieldVal.vUtc ⟨1969, 12, 31, 23, 59, 59, 999999999⟩)],
   [some (FieldVal.vI (-7)), some (FieldVal.vS ""), some (FieldVal.vB false),
    some (FieldVal.vDate 1999 12 31), none,
    some (FieldVal.vUtc ⟨2262, 4, 11, 23, 47, 16, 854775807⟩)]]

/-- C1, amended: for every non-empty record list over a record type with
distinct field names and plain supported field kinds, whose records conform
to the type and whose datetime instants are representable as i64 nanoseconds
since the epoch, from_dataframe after to_dataframe returns the original
records under structural equality; the representability bound is the
amendment the counterexample forces. -/
theorem C1_roundtrip_in_range (rt : List FieldSpec) (rows : List Row)
    (hne : rows ≠ []) (hrt : rt ≠ [])
    (hnd : (rt.map FieldSpec.fname).Nodup)
    (hplain : ∀ spec ∈ rt, isPlainKind spec.kind = true)
    (hok : ∀ r ∈ rows, rowOKb rt r = true ∧ inRangeRowB r = true) :
    (to_dataframe rt rows).bind (from_dataframe rt) = .ok rows := by
  obtain ⟨h1, h2⟩ := roundtrip_core rt rows hne hrt hnd hplain hok
  rw [h1]
  exact h2

set_option maxRecDepth 8000 in
/-- C1, witness: the amended round trip at a concrete six-field record type
and two conforming records. -/
theorem C1_roundtrip_in_range_witness :
    (to_dataframe rtW rowsW).bind (from_dataframe rtW) = .ok rowsW :=
  C1_roundtrip_in_range rtW rowsW (by decide) (by decide) (by decide)
    (by decide) (by decide)

/-- C3: for every non-empty input over a non-trivial record type, a DataFrame
to_dataframe builds has exactly as many rows as there are records, and the
records from_dataframe returns are exactly as many as the input DataFrame has
rows. -/
theorem C3_row_count_preserved (rt : List FieldSpec) (rows : List Row)
    (df : Batch) (out : List Row) (hrt : rt ≠ [])
    (h1 : to_dataframe rt rows = .ok df)
    (h2 : from_dataframe rt df = .ok out) :
    heightOf df = rows.length ∧ out.length = heightOf df := by
  obtain ⟨hne, converted, hcc, hcd⟩ := to_dataframe_ok_inv h1
  have hlen1 : converted.length = (to_record_batch rt rows).length := exMapM_ok_length hcc
  have hlen2 : df.length = converted.length := exMapM_ok_length hcd
  have hrtpos : 0 < rt.length := List.length_pos.mpr hrt
  have hjc : (0 : Nat) < converted.length := by
    rw [hlen1, to_record_batch_length]
    exact hrtpos
  have hje : (0 : Nat) < (to_record_batch rt rows).length := by
    rw [to_record_batch_length]
    exact hrtpos
  have hdfpos : 0 < df.length := by
    rw [hlen2]
    exact hjc
  constructor
  · have hu := exMapM_col_getD hcd 0 hjc
    have hcells1 : (colD df 0).cells = (colD converted 0).cells := undict_ok_cells hu
    have hv := exMapM_col_getD hcc 0 hje
    have hcells2 := (convert_one_column_ok_shape hv).2.1
    rw [heightOf_colD df (List.length_pos.mp hdfpos), hcells1, hcells2,
      to_record_batch_getD rt rows 0 hrtpos]
    simp
  · obtain ⟨conv2, hcf, hfr⟩ := from_dataframe_ok_inv h2
    obtain ⟨hnames, hopt⟩ := from_record_batch_ok_inv hfr
    have houtlen : out.length = heightOf conv2 := by
      have hl := optMapM_some_length hopt
      rw [hl, List.length_range]
    rw [houtlen]
    exact convert_from_chrono_height hcf

set_option maxRecDepth 8000 in
/-- C3, witness: row counts at the concrete record type and records, both
directions. -/
theorem C3_row_count_preserved_witness :
    heightOf (fwdBatch rtW rowsW) = rowsW.length ∧
      rowsW.length = heightOf (fwdBatch rtW rowsW) :=
  C3_row_count_preserved rtW rowsW (fwdBatch rtW rowsW) rowsW (by decide) rfl rfl

/-- C4: detection is type-driven, never value-driven. Through a successful
to_dataframe, a date-typed field yields a native Date32 column (never text);
an integer or string field is never entered in the signal map and its column
keeps the codec type (Int64 or LargeUtf8), never Date32, whatever the values
look like. -/
theorem C4_type_driven_detection (rt : List FieldSpec) (rows : List Row)
    (df : Batch) (j : Nat)
    (hnd : (rt.map FieldSpec.fname).Nodup) (hj : j < rt.length)
    (hdf : to_dataframe rt rows = .ok df) :
    (colD df j).name = (specD rt j).fname ∧
    ((specD rt j).kind = FieldKind.date →
      (colD df j).dtype = ADataType.date32) ∧
    ((specD rt j).kind = FieldKind.i64 →
      List.lookup (specD rt j).fname (detect_chrono_types rt (rows.getD 0 [])) = none ∧
      (colD df j).dtype = ADataType.int64 ∧
      (colD df j).dtype ≠ ADataType.date32) ∧
    ((specD rt j).kind = FieldKind.txt →
      List.lookup (specD rt j).fname (detect_chrono_types rt (rows.getD 0 [])) = none ∧
      (colD df j).dtype = ADataType.largeUtf8 ∧
      (colD df j).dtype ≠ ADataType.date32) := by
  obtain ⟨hne, converted, hcc, hcd⟩ := to_dataframe_ok_inv hdf
  have hje : j < (to_record_batch rt rows).length := by
    rw [to_record_batch_length]
    exact hj
  have hjc : j < converted.length := by
    rw [exMapM_ok_length hcc]
    exact hje
  have hcol := exMapM_col_getD hcc j hje
  have hu := exMapM_col_getD hcd j hjc
  have henc := to_record_batch_getD rt rows j hj
  have hename : (colD (to_record_batch rt rows) j).name = (specD rt j).fname := by
    rw [henc]
  have hshape := convert_one_column_ok_shape hcol
  refine ⟨by rw [undict_ok_name hu, hshape.1, hename], ?_, ?_, ?_⟩
  · intro hk
    have hlook := detect_lookup_plain rt (rows.getD 0 []) hnd j hj (by rw [hk]; rfl)
    rw [hk] at hlook
    have hlook2 : List.lookup (colD (to_record_batch rt rows) j).name
        (detect_chrono_types rt (rows.getD 0 [])) = some "NaiveDate" := by
      rw [hename]
      exact hlook
    rw [convert_one_column_date _ _ hlook2] at hcol
    obtain ⟨cells2, hc2, hb2⟩ := except_map_ok hcol
    have hdty : (colD converted j).dtype = ADataType.date32 := by
      rw [hb2]
      rfl
    have hnd2 : (colD converted j).dtype ≠ ADataType.dictionary ADataType.utf8 := by
      rw [hdty]
      decide
    rw [undict_ok_eq hu, if_neg hnd2]
    exact hdty
  · intro hk
    have hlook := detect_lookup_plain rt (rows.getD 0 []) hnd j hj (by rw [hk]; rfl)
    rw [hk] at hlook
    refine ⟨hlook, ?_⟩
    have hlook2 : List.lookup (colD (to_record_batch rt rows) j).name
        (detect_chrono_types rt (rows.getD 0 [])) = none := by
      rw [hename]
      exact hlook
    rw [convert_one_column_none _ _ hlook2] at hcol
    injection hcol with hc2
    have hdty : (colD converted j).dtype = ADataType.int64 := by
      rw [← hc2, henc, hk]
      rfl
    have hnd2 : (colD converted j).dtype ≠ ADataType.dictionary ADataType.utf8 := by
      rw [hdty]
      decide
    rw [undict_ok_eq hu, if_neg hnd2]
    exact ⟨hdty, by rw [hdty]; decide⟩
  · intro hk
    have hlook := detect_lookup_plain rt (rows.getD 0 []) hnd j hj (by rw [hk]; rfl)
    rw [hk] at hlook
    refine ⟨hlook, ?_⟩
    have hlook2 : List.lookup (colD (to_record_batch rt rows) j).name
        (detect_chrono_types rt (rows.getD 0 [])) = none := by
      rw [hename]
      exact hlook
    rw [convert_one_column_none _ _ hlook2] at hcol
    injection hcol with hc2
    have hdty : (colD converted j).dtype = ADataType.largeUtf8 := by
      rw [← hc2, henc, hk]
      rfl
    have hnd2 : (colD converted j).dtype ≠ ADataType.dictionary ADataType.utf8 := by
      rw [hdty]
      decide
    rw [undict_ok_eq hu, if_neg hnd2]
    exact ⟨hdty, by rw [hdty]; decide⟩

set_option maxRecDepth 8000 in
/-- C4, witness: the date field (index 3) of the concrete record type, next
to its integer field holding 20240101 and its text field holding
"2024-01-01". -/
theorem C4_type_driven_detection_witness :
    (colD (fwdBatch rtW rowsW) 3).name = (specD rtW 3).fname ∧
    ((specD rtW 3).kind = FieldKind.date →
      (colD (fwdBatch rtW rowsW) 3).dtype = ADataType.date32) ∧
    ((specD rtW 3).kind = FieldKind.i64 →
      List.lookup (specD rtW 3).fname (detect_chrono_types rtW (rowsW.getD 0 [])) = none ∧
      (colD (fwdBatch rtW rowsW) 3).dtype = ADataType.int64 ∧
      (colD (fwdBatch rtW rowsW) 3).dtype ≠ ADataType.date32) ∧
    ((specD rtW 3).kind = FieldKind.txt →
      List.lookup (specD rtW 3).fname (detect_chrono_types rtW (rowsW.getD 0 [])) = none ∧
      (colD (fwdBatch rtW rowsW) 3).dtype = ADataType.largeUtf8 ∧
      (colD (fwdBatch rtW rowsW) 3).dtype ≠ ADataType.date32) :=
  C4_type_driven_detection rtW rowsW (fwdBatch rtW rowsW) 3 (by decide) (by decide) rfl

/-- C6: on a signal-tagged string column, every non-null value is parsed
against the fixed per-tag format (%Y-%m-%d, %Y-%m-%dT%H:%M:%S%.f, RFC 3339):
if all parse, the conversion succeeds and nulls pass through as nulls; if one
non-null value is unparseable, the whole column fails with a ConversionError
whose message carries the offending text. -/
theorem C6_string_parse_contract (nm : String) (dt : ADataType)
    (cells : List (Option Cell))
    (hdt : dt = ADataType.utf8 ∨ dt = ADataType.largeUtf8)
    (hwt : ∀ oc ∈ cells, oc = none ∨ ∃ s, oc = some (Cell.s s)) :
    ((∀ s, some (Cell.s s) ∈ cells → (naiveDateParse s).isSome = true) →
      ∃ out, convert_string_dates_to_date32 (mkCol nm dt cells) = .ok out ∧
        out.length = cells.length ∧
        ∀ j, (cells.getD j none = none ↔ out.getD j none = none)) ∧
    ((∃ s, some (Cell.s s) ∈ cells ∧ naiveDateParse s = none) →
      ∃ s2, some (Cell.s s2) ∈ cells ∧
        convert_string_dates_to_date32 (mkCol nm dt cells) =
          .error (.conversionError ("Failed to parse date string: " ++ s2))) ∧
    ((∀ s, some (Cell.s s) ∈ cells → (naiveDateTimeParse s).isSome = true) →
      ∃ out, convert_string_datetimes_to_timestamp (mkCol nm dt cells) none = .ok out ∧
        out.length = cells.length ∧
        ∀ j, (cells.getD j none = none ↔ out.getD j none = none)) ∧
    ((∃ s, some (Cell.s s) ∈ cells ∧ naiveDateTimeParse s = none) →
      ∃ s2, some (Cell.s s2) ∈ cells ∧
        convert_string_datetimes_to_timestamp (mkCol nm dt cells) none =
          .error (.conversionError ("Failed to parse datetime string: " ++ s2))) ∧
    ((∀ s, some (Cell.s s) ∈ cells → (rfc3339Parse s).isSome = true) →
      ∃ out, convert_string_datetimes_to_timestamp (mkCol nm dt cells) (some "UTC") =
        .ok out ∧ out.length = cells.length ∧
        ∀ j, (cells.getD j none = none ↔ out.getD j none = none)) ∧
    ((∃ s, some (Cell.s s) ∈ cells ∧ rfc3339Parse s = none) →
      ∃ s2, some (Cell.s s2) ∈ cells ∧
        convert_string_datetimes_to_timestamp (mkCol nm dt cells) (some "UTC") =
          .error (.conversionError ("Failed to parse UTC datetime string: " ++ s2))) := by
  have hdate := convert_string_dates_on_strings nm dt cells hdt
  have hnaive := convert_string_datetimes_on_strings nm dt cells none hdt
  have hutc := convert_string_datetimes_on_strings nm dt cells (some "UTC") hdt
  refine ⟨?_, ?_, ?_, ?_, ?_, ?_⟩
  · intro hq
    obtain ⟨out, h1, h2, h3⟩ := exMapM_string_ok date_cell_to_date32
      (fun s => (naiveDateParse s).isSome = true) rfl
      (by
        intro s hs
        obtain ⟨ymd, hy⟩ := Option.isSome_iff_exists.mp hs
        exact ⟨_, date_cell_some s ymd hy⟩)
      cells hwt hq
    exact ⟨out, by rw [hdate]; exact h1, h2, h3⟩
  · intro hbad
    obtain ⟨s0, hs0, hn0⟩ := hbad
    obtain ⟨s2, hs2, hnq2, herr2⟩ := exMapM_string_err date_cell_to_date32
      (fun s => (naiveDateParse s).isSome = true) "Failed to parse date string: " rfl
      (by
        intro s hs
        obtain ⟨ymd, hy⟩ := Option.isSome_iff_exists.mp hs
        exact ⟨_, date_cell_some s ymd hy⟩)
      (by
        intro s hs
        exact date_cell_none s (Option.not_isSome_iff_eq_none.mp hs))
      cells hwt ⟨s0, hs0, by
        intro hcontra
        have hc9 : naiveDateParse s0 = none := hn0
        rw [hc9] at hcontra
        simp at hcontra⟩
    exact ⟨s2, hs2, by rw [hdate]; exact herr2⟩
  · intro hq
    obtain ⟨out, h1, h2, h3⟩ := exMapM_string_ok (datetime_cell_to_timestamp false)
      (fun s => (naiveDateTimeParse s).isSome = true) rfl
      (by
        intro s hs
        obtain ⟨t, ht⟩ := Option.isSome_iff_exists.mp hs
        exact ⟨_, datetime_cell_ok false s _ (parse_dt_naive_some s t ht)⟩)
      cells hwt hq
    exact ⟨out, by rw [hnaive]; exact h1, h2, h3⟩
  · intro hbad
    obtain ⟨s0, hs0, hn0⟩ := hbad
    obtain ⟨s2, hs2, hnq2, herr2⟩ := exMapM_string_err (datetime_cell_to_timestamp false)
      (fun s => (naiveDateTimeParse s).isSome = true) "Failed to parse datetime string: " rfl
      (by
        intro s hs
        obtain ⟨t, ht⟩ := Option.isSome_iff_exists.mp hs
        exact ⟨_, datetime_cell_ok false s _ (parse_dt_naive_some s t ht)⟩)
      (by
        intro s hs
        exact datetime_cell_err false s _
          (parse_dt_naive_none s (Option.not_isSome_iff_eq_none.mp hs)))
      cells hwt ⟨s0, hs0, by
        intro hcontra
        have hc9 : naiveDateTimeParse s0 = none := hn0
        rw [hc9] at hcontra
        simp at hcontra⟩
    exact ⟨s2, hs2, by rw [hnaive]; exact herr2⟩
  · intro hq
    obtain ⟨out, h1, h2, h3⟩ := exMapM_string_ok (datetime_cell_to_timestamp true)
      (fun s => (rfc3339Parse s).isSome = true) rfl
      (by
        intro s hs
        obtain ⟨p, hp⟩ := Option.isSome_iff_exists.mp hs
        exact ⟨_, datetime_cell_ok true s _ (parse_dt_utc_some s p hp)⟩)
      cells hwt hq
    exact ⟨out, by rw [hutc]; exact h1, h2, h3⟩
  · intro hbad
    obtain ⟨s0, hs0, hn0⟩ := hbad
    obtain ⟨s2, hs2, hnq2, herr2⟩ := exMapM_string_err (datetime_cell_to_timestamp true)
      (fun s => (rfc3339Parse s).isSome = true)
      "Failed to parse UTC datetime string: " rfl
      (by
        intro s hs
        obtain ⟨p, hp⟩ := Option.isSome_iff_exists.mp hs
        exact ⟨_, datetime_cell_ok true s _ (parse_dt_utc_some s p hp)⟩)
      (by
        intro s hs
        exact datetime_cell_err true s _
          (parse_dt_utc_none s (Option.not_isSome_iff_eq_none.mp hs)))
      cells hwt ⟨s0, hs0, by
        intro hcontra
        have hc9 : rfc3339Parse s0 = none := hn0
        rw [hc9] at hcontra
        simp at hcontra⟩
    exact ⟨s2, hs2, by rw [hutc]; exact herr2⟩

/-- Cells used by the C6 witness: one null cell and one date text. -/
def cellsW : List (Option Cell) := [none, some (Cell.s "2024-01-02")]

/-- C6, witness: the string-column parse contract at a concrete Utf8 column
of one null and one date string. -/
theorem C6_string_parse_contract_witness :
    ((∀ s, some (Cell.s s) ∈ cellsW → (naiveDateParse s).isSome = true) →
      ∃ out, convert_string_dates_to_date32 (mkCol "c" ADataType.utf8 cellsW) = .ok out ∧
        out.length = cellsW.length ∧
        ∀ j, (cellsW.getD j none = none ↔ out.getD j none = none)) ∧
    ((∃ s, some (Cell.s s) ∈ cellsW ∧ naiveDateParse s = none) →
      ∃ s2, some (Cell.s s2) ∈ cellsW ∧
        convert_string_dates_to_date32 (mkCol "c" ADataType.utf8 cellsW) =
          .error (.conversionError ("Failed to parse date string: " ++ s2))) ∧
    ((∀ s, some (Cell.s s) ∈ cellsW → (naiveDateTimeParse s).isSome = true) →
      ∃ out, convert_string_datetimes_to_timestamp (mkCol "c" ADataType.utf8 cellsW) none =
        .ok out ∧ out.length = cellsW.length ∧
        ∀ j, (cellsW.getD j none = none ↔ out.getD j none = none)) ∧
    ((∃ s, some (Cell.s s) ∈ cellsW ∧ naiveDateTimeParse s = none) →
      ∃ s2, some (Cell.s s2) ∈ cellsW ∧
        convert_string_datetimes_to_timestamp (mkCol "c" ADataType.utf8 cellsW) none =
          .error (.conversionError ("Failed to parse datetime string: " ++ s2))) ∧
    ((∀ s, some (Cell.s s) ∈ cellsW → (rfc3339Parse s).isSome = true) →
      ∃ out, convert_string_datetimes_to_timestamp (mkCol "c" ADataType.utf8 cellsW)
        (some "UTC") = .ok out ∧ out.length = cellsW.length ∧
        ∀ j, (cellsW.getD j none = none ↔ out.getD j none = none)) ∧
    ((∃ s, some (Cell.s s) ∈ cellsW ∧ rfc3339Parse s = none) →
      ∃ s2, some (Cell.s s2) ∈ cellsW ∧
        convert_string_datetimes_to_timestamp (mkCol "c" ADataType.utf8 cellsW)
          (some "UTC") =
          .error (.conversionError ("Failed to parse UTC datetime string: " ++ s2))) :=
  C6_string_parse_contract "c" ADataType.utf8 cellsW (Or.inl rfl)
    (by
      intro oc h
      simp only [cellsW, List.mem_cons, List.not_mem_nil, or_false] at h
      rcases h with rfl | rfl
      · exact Or.inl rfl
      · exact Or.inr ⟨"2024-01-02", rfl⟩)

/-- C7, counterexample: a millisecond-precision native timestamp column does
not fall back to a generic cast on the reverse path: the dedicated timestamp
conversion's nanosecond downcast fails and the whole conversion errors
out. -/
theorem C7_ms_timestamp_counterexample :
    convert_from_chrono_columns
      [mkCol "t" (ADataType.timestamp ATimeUnit.millisecond none) [some (Cell.i 1000)]] =
      .error (.conversionError "Expected Timestamp array for string conversion") := rfl

/-- C7, amended: the generic engine-provided cast to text covers exactly the
Date64 encoding on the reverse path; a successfully reconciled Date64 column
comes out as the generic textual cast of its cells. -/
theorem C7_date64_generic_cast (b out : Batch) (j : Nat)
    (h : convert_from_chrono_columns b = .ok out) (hj : j < b.length)
    (hd : (colD b j).dtype = ADataType.date64) :
    colD out j = mkCol (colD b j).name ADataType.utf8
      (castDate64CellsToUtf8 (colD b j).cells) := by
  have hu := exMapM_col_getD h j hj
  rw [unconvert_one_column_date64 (colD b j) hd] at hu
  injection hu with h2
  exact h2.symm

/-- Batch used by the C7 witness: one Date64 column holding the epoch and a
null. -/
def date64B : Batch := [mkCol "d" ADataType.date64 [some (Cell.i 0), none]]

/-- What the C7 witness expects the reverse reconciler to produce. -/
def date64Out : Batch :=
  [mkCol "d" ADataType.utf8 [some (Cell.s "1970-01-01T00:00:00"), none]]

set_option maxRecDepth 8000 in
/-- C7, witness: the Date64 generic cast at a concrete column. -/
theorem C7_date64_generic_cast_witness :
    colD date64Out 0 = mkCol (colD date64B 0).name ADataType.utf8
      (castDate64CellsToUtf8 (colD date64B 0).cells) :=
  C7_date64_generic_cast date64B date64Out 0 rfl (by decide) rfl

/-- C8: every Dictionary(_, Utf8) column is recast to plain text by the
dictionary normalization, unconditionally and independent of the signal map;
and no column of a batch to_dataframe produces is dictionary-coded. -/
theorem C8_no_categorical (b out : Batch) (rt : List FieldSpec) (rows : List Row)
    (df : Batch) (j : Nat)
    (hb : convert_dictionary_to_strings b = .ok out)
    (hdf : to_dataframe rt rows = .ok df) :
    (j < b.length →
      colD out j = (if (colD b j).dtype = ADataType.dictionary ADataType.utf8 then
        mkCol (colD b j).name ADataType.utf8 (colD b j).cells else colD b j)) ∧
    (∀ v, j < df.length → (colD df j).dtype ≠ ADataType.dictionary v) := by
  constructor
  · intro hj
    exact undict_ok_eq (exMapM_col_getD hb j hj)
  · intro v hj
    obtain ⟨hne, converted, hcc, hcd⟩ := to_dataframe_ok_inv hdf
    have hjc : j < converted.length := by
      rw [← exMapM_ok_length hcd]
      exact hj
    have hje : j < (to_record_batch rt rows).length := by
      rw [← exMapM_ok_length hcc]
      exact hjc
    have hjrt : j < rt.length := by
      rw [← to_record_batch_length rt rows]
      exact hje
    have hcv := exMapM_col_getD hcc j hje
    have hshape := (convert_one_column_ok_shape hcv).2.2
    have hety : (colD (to_record_batch rt rows) j).dtype =
        arrowTypeOf (specD rt j).kind := by
      rw [to_record_batch_getD rt rows j hjrt]
    have hnotdict : ∀ w, (colD converted j).dtype ≠ ADataType.dictionary w := by
      intro w hcontra
      rcases hshape with h4 | h4 | h4 | h4
      · rw [h4, hety] at hcontra
        exact arrowTypeOf_ne_dict _ w hcontra
      · rw [h4] at hcontra
        exact ADataType.noConfusion hcontra
      · rw [h4] at hcontra
        exact ADataType.noConfusion hcontra
      · rw [h4] at hcontra
        exact ADataType.noConfusion hcontra
    rw [undict_ok_eq (exMapM_col_getD hcd j hjc),
      if_neg (hnotdict ADataType.utf8)]
    exact hnotdict v

/-- Batch used by the C8 witness: one dictionary-coded text column. -/
def dictB : Batch := [mkCol "s" (ADataType.dictionary ADataType.utf8) [some (Cell.s "x")]]

/-- What the C8 witness expects the dictionary normalization to produce. -/
def undictB : Batch := [mkCol "s" ADataType.utf8 [some (Cell.s "x")]]

set_option maxRecDepth 8000 in
/-- C8, witness: the recast at a concrete dictionary column, and
no-dictionary for the concrete to_dataframe output. -/
theorem C8_no_categorical_witness :
    (0 < dictB.length →
      colD undictB 0 = (if (colD dictB 0).dtype = ADataType.dictionary ADataType.utf8 then
        mkCol (colD dictB 0).name ADataType.utf8 (colD dictB 0).cells else colD dictB 0)) ∧
    (∀ v, 0 < (fwdBatch rtW rowsW).length →
      (colD (fwdBatch rtW rowsW) 0).dtype ≠ ADataType.dictionary v) :=
  C8_no_categorical dictB undictB rtW rowsW (fwdBatch rtW rowsW) 0 rfl rfl

/-- C9: a column whose signal-map tag is an unrecognized wrapper name passes
through the forward reconciler unchanged: same values, same declared type. -/
theorem C9_unrecognized_tag_passthrough (b : Batch) (tags : List (String × String))
    (out : Batch) (j : Nat) (tag : String)
    (h : convert_chrono_columns b tags = .ok out) (hj : j < b.length)
    (hl : List.lookup (colD b j).name tags = some tag)
    (h1 : tag ≠ "NaiveDate") (h2 : tag ≠ "NaiveDateTime") (h3 : tag ≠ "DateTimeUtc") :
    colD out j = colD b j := by
  have hc := exMapM_col_getD h j hj
  rw [convert_one_column_other tags (colD b j) tag hl h1 h2 h3] at hc
  injection hc with h4
  exact h4.symm

/-- Batch used by the C9 witness: one integer column tagged by an
unrecognized wrapper name. -/
def wrapB : Batch := [mkCol "w" ADataType.int64 [some (Cell.i 5)]]

/-- C9, witness: pass-through at a concrete column tagged "Uuid". -/
theorem C9_unrecognized_tag_passthrough_witness :
    colD wrapB 0 = colD wrapB 0 :=
  C9_unrecognized_tag_passthrough wrapB [("w", "Uuid")] wrapB 0 "Uuid" rfl (by decide)
    rfl (by decide) (by decide) (by decide)
